import Mathlib

/-!
Verification of the pyrogram-asyncio client core against its specification.

Each Python function under scrutiny is shallowly embedded as an executable
Lean definition translated from `src/pyrogram/client/...`.  Machine integers
are `Nat`/`Int`; Python exceptions become `Option`/`Except`; Python strings
become `String` or `List Char`; byte strings become `List Nat` with every
element `< 256`.
-/

namespace Pyro

/-! ## File-id encoding (`src/pyrogram/client/ext/utils.py`, `encode`/`decode`)

`encode` performs zero-run-length byte stuffing of the raw bytes followed by
the sentinel byte `2`, then URL-safe base64 without padding
(`base64.urlsafe_b64encode(r).decode().rstrip("=")`).  `decode` re-pads the
string, base64-decodes it, asserts the final byte is the sentinel `2` and
undoes the stuffing.

The base64 layer models Python's `base64.urlsafe_b64encode`/`urlsafe_b64decode`
(standard library calls, not repository code): 3 input bytes become 4 sextet
characters, a remainder of 1 or 2 bytes becomes 2 or 3 characters once the
stripped `=` padding is accounted for.  Characters outside the base64 alphabet
make the decoder fail where CPython would silently discard them; every claim
below only ever decodes alphabet-only strings, so no claim's truth value
depends on that difference.
-/

/-- The URL-safe base64 alphabet used by `base64.urlsafe_b64encode`. -/
def b64Alphabet : List Char :=
  ['A', 'B', 'C', 'D', 'E', 'F', 'G', 'H', 'I', 'J', 'K', 'L', 'M',
   'N', 'O', 'P', 'Q', 'R', 'S', 'T', 'U', 'V', 'W', 'X', 'Y', 'Z',
   'a', 'b', 'c', 'd', 'e', 'f', 'g', 'h', 'i', 'j', 'k', 'l', 'm',
   'n', 'o', 'p', 'q', 'r', 's', 't', 'u', 'v', 'w', 'x', 'y', 'z',
   '0', '1', '2', '3', '4', '5', '6', '7', '8', '9', '-', '_']

/-- Character for one sextet. -/
def b64Char (n : Nat) : Char := b64Alphabet.getD n 'A'

/-- Sextet for one character.  `urlsafe_b64decode` first translates `-`/`_`
to `+`/`/` and then runs the standard decoder, so `+` and `/` are accepted
as well. -/
def b64CharIndex (c : Char) : Option Nat :=
  if c = '+' then some 62
  else if c = '/' then some 63
  else b64Alphabet.findIdx? (fun x => x == c)

/-- Bytes to sextets, as `base64.b64encode` groups them (before padding is
stripped): a trailing 1-byte group yields 2 sextets, a 2-byte group yields 3. -/
def b64EncChunks : List Nat → List Nat
  | [] => []
  | [a] => [a / 4, a % 4 * 16]
  | [a, b] => [a / 4, a % 4 * 16 + b / 16, b % 16 * 4]
  | a :: b :: c :: rest =>
      a / 4 :: (a % 4 * 16 + b / 16) :: (b % 16 * 4 + c / 64) :: c % 64 ::
        b64EncChunks rest

/-- Sextets back to bytes.  A trailing group of 2 or 3 sextets corresponds to
the `==`/`=` padding Python re-adds before calling `b64decode`; a trailing
group of 1 sextet is invalid padding (`binascii.Error`). -/
def b64DecChunks : List Nat → Option (List Nat)
  | [] => some []
  | [_] => none
  | [a, b] => some [a * 4 + b / 16]
  | [a, b, c] => some [a * 4 + b / 16, b % 16 * 16 + c / 4]
  | a :: b :: c :: d :: rest =>
      (b64DecChunks rest).map
        (fun r => (a * 4 + b / 16) :: (b % 16 * 16 + c / 4) ::
          (c % 4 * 64 + d) :: r)

/-- `Option`-valued map used by the decoder (Python raises on the first bad
character). -/
def mapOpt (f : α → Option β) : List α → Option (List β)
  | [] => some []
  | a :: l =>
    match f a with
    | none => none
    | some b => (mapOpt f l).map (fun r => b :: r)

/-- `base64.urlsafe_b64decode(s + "=" * (-len(s) % 4))` on an unpadded string. -/
def b64Decode (cs : List Char) : Option (List Nat) :=
  match mapOpt b64CharIndex cs with
  | none => none
  | some xs => b64DecChunks xs

/-- The run-length stuffing loop of `encode`, processing `s + bytes([2])` with
`n` zero bytes pending.  `bytes([n])` raises `ValueError` when a flushed run
exceeds 255, hence `none` there. -/
def rleStuff : List Nat → Nat → Option (List Nat)
  | [], n =>
      if n = 0 then some [2]
      else if n ≤ 255 then some [0, n, 2]
      else none
  | i :: rest, n =>
      if i = 0 then rleStuff rest (n + 1)
      else if n = 0 then (rleStuff rest 0).map (fun r => i :: r)
      else if n ≤ 255 then (rleStuff rest 0).map (fun r => 0 :: n :: i :: r)
      else none

/-- `utils.encode`: stuff, append sentinel, base64 without padding.  `none`
models the `ValueError` raised by `bytes([n])` on a zero run longer than
255. -/
def encode (s : List Nat) : Option (List Char) :=
  (rleStuff s 0).map (fun r => (b64EncChunks r).map b64Char)

/-- The unstuffing loop of `decode` (`while i < len(s) - 1`), taken verbatim:
a zero byte consumes the next byte as a run length; the final byte (the
sentinel position) is never emitted on its own. -/
def rleUnstuffAux : List Nat → List Nat
  | [] => []
  | [_] => []
  | 0 :: n :: rest => List.replicate n 0 ++ rleUnstuffAux rest
  | i :: rest => i :: rleUnstuffAux rest

/-- `utils.decode`: base64-decode, `assert s[-1] == 2`, unstuff.  `none`
models both the `IndexError` on an empty decoded string and the failed
assertion. -/
def decode (cs : List Char) : Option (List Nat) :=
  match b64Decode cs with
  | none => none
  | some s =>
    match s.getLast? with
    | some 2 => some (rleUnstuffAux s)
    | _ => none

/-! ### Round-trip lemmas for the base64 layer -/

theorem b64CharIndex_b64Char_fin :
    ∀ n : Fin 64, b64CharIndex (b64Char n.val) = some n.val := by decide

theorem b64CharIndex_b64Char (n : Nat) (h : n < 64) :
    b64CharIndex (b64Char n) = some n :=
  b64CharIndex_b64Char_fin ⟨n, h⟩

theorem b64EncChunks_lt :
    ∀ s : List Nat, (∀ b ∈ s, b < 256) → ∀ x ∈ b64EncChunks s, x < 64
  | [], _ => by simp [b64EncChunks]
  | [a], h => by
      have ha : a < 256 := h a (by simp)
      simp only [b64EncChunks, List.mem_cons, List.not_mem_nil, or_false]
      rintro x (rfl | rfl) <;> omega
  | [a, b], h => by
      have ha : a < 256 := h a (by simp)
      have hb : b < 256 := h b (by simp)
      simp only [b64EncChunks, List.mem_cons, List.not_mem_nil, or_false]
      rintro x (rfl | rfl | rfl) <;> omega
  | a :: b :: c :: rest, h => by
      have ha : a < 256 := h a (by simp)
      have hb : b < 256 := h b (by simp)
      have hc : c < 256 := h c (by simp)
      have ih := b64EncChunks_lt rest (fun x hx => h x (by simp [hx]))
      simp only [b64EncChunks, List.mem_cons]
      rintro x (rfl | rfl | rfl | rfl | hx)
      · omega
      · omega
      · omega
      · omega
      · exact ih x hx

theorem b64DecChunks_enc :
    ∀ s : List Nat, (∀ b ∈ s, b < 256) →
      b64DecChunks (b64EncChunks s) = some s
  | [], _ => by simp [b64EncChunks, b64DecChunks]
  | [a], h => by
      have ha : a < 256 := h a (by simp)
      simp [b64EncChunks, b64DecChunks]
      omega
  | [a, b], h => by
      have ha : a < 256 := h a (by simp)
      have hb : b < 256 := h b (by simp)
      simp [b64EncChunks, b64DecChunks]
      omega
  | a :: b :: c :: rest, h => by
      have ha : a < 256 := h a (by simp)
      have hb : b < 256 := h b (by simp)
      have hc : c < 256 := h c (by simp)
      have ih := b64DecChunks_enc rest (fun x hx => h x (by simp [hx]))
      simp [b64EncChunks, b64DecChunks, ih]
      omega

theorem mapOpt_map_eq (f : β → Option α) (g : α → β) :
    ∀ l : List α, (∀ x ∈ l, f (g x) = some x) → mapOpt f (l.map g) = some l
  | [], _ => rfl
  | a :: l, h => by
      have ih := mapOpt_map_eq f g l (fun x hx => h x (by simp [hx]))
      simp [mapOpt, h a (by simp), ih]

theorem b64Decode_enc (s : List Nat) (h : ∀ b ∈ s, b < 256) :
    b64Decode ((b64EncChunks s).map b64Char) = some s := by
  have hmap := mapOpt_map_eq b64CharIndex b64Char (b64EncChunks s)
    (fun x hx => b64CharIndex_b64Char x (b64EncChunks_lt s h x hx))
  simp [b64Decode, hmap, b64DecChunks_enc s h]

/-! ### Round-trip lemmas for the run-length stuffing layer -/

theorem rleStuff_ne_nil :
    ∀ (s : List Nat) (n : Nat) (r : List Nat), rleStuff s n = some r → r ≠ []
  | [], n, r => by
      simp only [rleStuff]
      split
      · rintro ⟨rfl⟩; simp
      · split
        · rintro ⟨rfl⟩; simp
        · simp
  | i :: rest, n, r => by
      simp only [rleStuff]
      split
      · exact rleStuff_ne_nil rest (n + 1) r
      · split
        · rcases hr : rleStuff rest 0 with _ | r'
          · simp [hr]
          · simp only [hr, Option.map_some']
            rintro ⟨rfl⟩; simp
        · split
          · rcases hr : rleStuff rest 0 with _ | r'
            · simp [hr]
            · simp only [hr, Option.map_some']
              rintro ⟨rfl⟩; simp
          · simp

theorem rleStuff_getLast :
    ∀ (s : List Nat) (n : Nat) (r : List Nat), rleStuff s n = some r →
      r.getLast? = some 2
  | [], n, r => by
      simp only [rleStuff]
      split
      · rintro ⟨rfl⟩; rfl
      · split
        · rintro ⟨rfl⟩; rfl
        · simp
  | i :: rest, n, r => by
      simp only [rleStuff]
      split
      · exact rleStuff_getLast rest (n + 1) r
      · split
        · rcases hr : rleStuff rest 0 with _ | r'
          · simp [hr]
          · simp only [hr, Option.map_some']
            rintro ⟨rfl⟩
            simp [List.getLast?_cons, rleStuff_getLast rest 0 r' hr]
        · split
          · rcases hr : rleStuff rest 0 with _ | r'
            · simp [hr]
            · simp only [hr, Option.map_some']
              rintro ⟨rfl⟩
              simp [List.getLast?_cons, rleStuff_getLast rest 0 r' hr]
          · simp

theorem rleStuff_mem_lt :
    ∀ (s : List Nat) (n : Nat) (r : List Nat), rleStuff s n = some r →
      (∀ b ∈ s, b < 256) → ∀ b ∈ r, b < 256
  | [], n, r => by
      simp only [rleStuff]
      split
      · rintro ⟨rfl⟩ _; simp
      · split
        · rename_i h0 h255
          rintro ⟨rfl⟩ _
          simp only [List.mem_cons, List.not_mem_nil, or_false]
          rintro b (rfl | rfl | rfl) <;> omega
        · simp
  | i :: rest, n, r => by
      simp only [rleStuff]
      split
      · intro h hs
        exact rleStuff_mem_lt rest (n + 1) r h (fun b hb => hs b (by simp [hb]))
      · split
        · rcases hr : rleStuff rest 0 with _ | r'
          · simp [hr]
          · simp only [hr, Option.map_some']
            rintro ⟨rfl⟩ hs
            have ih := rleStuff_mem_lt rest 0 r' hr (fun b hb => hs b (by simp [hb]))
            have hhead : i < 256 := hs i (by simp)
            simp only [List.mem_cons]
            rintro x (rfl | hx)
            · exact hhead
            · exact ih x hx
        · split
          · rename_i hi hn h255
            rcases hr : rleStuff rest 0 with _ | r'
            · simp [hr]
            · simp only [hr, Option.map_some']
              rintro ⟨rfl⟩ hs
              have ih := rleStuff_mem_lt rest 0 r' hr (fun b hb => hs b (by simp [hb]))
              have hhead : i < 256 := hs i (by simp)
              simp only [List.mem_cons]
              rintro x (rfl | rfl | rfl | hx)
              · omega
              · omega
              · exact hhead
              · exact ih x hx
          · simp

theorem rleUnstuffAux_cons_ne (i : Nat) (r : List Nat) (hi : i ≠ 0) (hr : r ≠ []) :
    rleUnstuffAux (i :: r) = i :: rleUnstuffAux r := by
  match r with
  | [] => exact absurd rfl hr
  | b :: r' =>
    match i, hi with
    | Nat.succ j, _ => rfl

theorem rleUnstuff_rleStuff :
    ∀ (s : List Nat) (n : Nat) (r : List Nat), rleStuff s n = some r →
      rleUnstuffAux r = List.replicate n 0 ++ s
  | [], n, r => by
      simp only [rleStuff]
      split
      · rename_i h0; subst h0
        rintro ⟨rfl⟩; rfl
      · split
        · rintro ⟨rfl⟩
          show List.replicate n 0 ++ rleUnstuffAux [2] = List.replicate n 0 ++ []
          rfl
        · simp
  | i :: rest, n, r => by
      simp only [rleStuff]
      split
      · rename_i hi; subst hi
        intro h
        rw [rleUnstuff_rleStuff rest (n + 1) r h, List.replicate_succ',
          List.append_assoc, List.singleton_append]
      · split
        · rename_i hi hn; subst hn
          rcases hr : rleStuff rest 0 with _ | r'
          · simp [hr]
          · simp only [hr, Option.map_some']
            rintro ⟨rfl⟩
            rw [rleUnstuffAux_cons_ne i r' hi (rleStuff_ne_nil rest 0 r' hr),
              rleUnstuff_rleStuff rest 0 r' hr]
            simp
        · split
          · rename_i hi hn h255
            rcases hr : rleStuff rest 0 with _ | r'
            · simp [hr]
            · simp only [hr, Option.map_some']
              rintro ⟨rfl⟩
              show List.replicate n 0 ++ rleUnstuffAux (i :: r') = _
              rw [rleUnstuffAux_cons_ne i r' hi (rleStuff_ne_nil rest 0 r' hr),
                rleUnstuff_rleStuff rest 0 r' hr]
              simp
          · simp

/-- Whenever the stuffing loop succeeds, the full decode inverts the full
encode. -/
theorem decode_encode_of_stuff (s : List Nat) (r : List Nat)
    (hb : ∀ b ∈ s, b < 256) (h : rleStuff s 0 = some r) :
    decode ((b64EncChunks r).map b64Char) = some s := by
  have hlt := rleStuff_mem_lt s 0 r h hb
  have hdec := b64Decode_enc r hlt
  have hlast := rleStuff_getLast s 0 r h
  have huns := rleUnstuff_rleStuff s 0 r h
  simp only [decode, hdec, hlast]
  simp [huns]

/-! ### When does the stuffing loop succeed? -/

theorem rleStuff_replicate_append :
    ∀ (k : Nat) (s : List Nat) (n : Nat),
      rleStuff (List.replicate k 0 ++ s) n = rleStuff s (n + k)
  | 0, s, n => by simp
  | k + 1, s, n => by
      rw [List.replicate_succ, List.cons_append]
      show rleStuff (0 :: (List.replicate k 0 ++ s)) n = _
      rw [show rleStuff (0 :: (List.replicate k 0 ++ s)) n
            = rleStuff (List.replicate k 0 ++ s) (n + 1) by simp [rleStuff],
        rleStuff_replicate_append k s (n + 1)]
      ring_nf

theorem rleStuff_none_of_ge :
    ∀ (s : List Nat) (n : Nat), 256 ≤ n → rleStuff s n = none
  | [], n, h => by
      have h0 : ¬n = 0 := by omega
      have h255 : ¬n ≤ 255 := by omega
      simp [rleStuff, h0, h255]
  | i :: rest, n, h => by
      by_cases hi : i = 0
      · subst hi
        simp only [rleStuff, if_pos rfl]
        exact rleStuff_none_of_ge rest (n + 1) (by omega)
      · have h0 : ¬n = 0 := by omega
        have h255 : ¬n ≤ 255 := by omega
        simp [rleStuff, hi, h0, h255]

theorem rleStuff_none_of_parts :
    ∀ (t u : List Nat) (n : Nat),
      rleStuff (t ++ (List.replicate 256 0 ++ u)) n = none
  | [], u, n => by
      rw [List.nil_append, rleStuff_replicate_append 256 u n]
      exact rleStuff_none_of_ge u (n + 256) (by omega)
  | i :: t, u, n => by
      by_cases hi : i = 0
      · subst hi
        rw [List.cons_append]
        show rleStuff (0 :: (t ++ (List.replicate 256 0 ++ u))) n = none
        simp only [rleStuff, if_pos rfl]
        exact rleStuff_none_of_parts t u (n + 1)
      · rw [List.cons_append]
        simp only [rleStuff, if_neg hi, rleStuff_none_of_parts t u 0,
          Option.map_none']
        split
        · rfl
        · split <;> rfl

theorem rleStuff_none_of_infix (s : List Nat)
    (h : List.IsInfix (List.replicate 256 0) s) (n : Nat) :
    rleStuff s n = none := by
  rcases h with ⟨t, u, rfl⟩
  rw [List.append_assoc]
  exact rleStuff_none_of_parts t u n

theorem replicate_append_cons (n : Nat) (x : α) (l : List α) :
    List.replicate n x ++ x :: l = List.replicate (n + 1) x ++ l := by
  rw [List.replicate_succ', List.append_assoc, List.singleton_append]

theorem infix_of_rleStuff_none :
    ∀ (s : List Nat) (n : Nat), rleStuff s n = none →
      List.IsInfix (List.replicate 256 0) (List.replicate n 0 ++ s)
  | [], n => by
      simp only [rleStuff]
      split
      · nofun
      · split
        · nofun
        · intro _
          rename_i h0 h255
          have hn : 256 + (n - 256) = n := by omega
          refine ⟨[], List.replicate (n - 256) 0, ?_⟩
          rw [List.nil_append, List.append_nil, ← List.replicate_add, hn]
  | i :: rest, n => by
      by_cases hi : i = 0
      · subst hi
        simp only [rleStuff, if_pos rfl]
        intro h
        have ih := infix_of_rleStuff_none rest (n + 1) h
        rw [replicate_append_cons]
        exact ih
      · simp only [rleStuff, if_neg hi]
        have step : rleStuff rest 0 = none →
            List.IsInfix (List.replicate 256 0) (List.replicate n 0 ++ i :: rest) := by
          intro h
          have ih := infix_of_rleStuff_none rest 0 h
          rw [List.replicate, List.nil_append] at ih
          rcases ih with ⟨t, u, rfl⟩
          refine ⟨List.replicate n 0 ++ i :: t, u, ?_⟩
          simp only [List.append_assoc, List.cons_append]
        split
        · rcases hr : rleStuff rest 0 with _ | r'
          · intro _; exact step hr
          · intro h
            rw [Option.map_some'] at h
            exact Option.noConfusion h
        · split
          · rcases hr : rleStuff rest 0 with _ | r'
            · intro _; exact step hr
            · intro h
              rw [Option.map_some'] at h
              exact Option.noConfusion h
          · intro _
            rename_i hn h255
            have h256 : 256 + (n - 256) = n := by omega
            refine ⟨[], List.replicate (n - 256) 0 ++ i :: rest, ?_⟩
            rw [List.nil_append, ← List.append_assoc, ← List.replicate_add,
              h256]

theorem rleStuff_isSome_of_length :
    ∀ (s : List Nat) (n : Nat), n + s.length ≤ 255 → (rleStuff s n).isSome
  | [], n, h => by
      simp only [rleStuff]
      split
      · rfl
      · rw [if_pos (by simpa using h)]; rfl
  | i :: rest, n, h => by
      by_cases hi : i = 0
      · subst hi
        simp only [rleStuff, if_pos rfl]
        exact rleStuff_isSome_of_length rest (n + 1) (by simp at h; omega)
      · have hrec := rleStuff_isSome_of_length rest 0 (by simp at h; omega)
        rcases hr : rleStuff rest 0 with _ | r'
        · rw [hr] at hrec; simp at hrec
        · by_cases hn : n = 0
          · simp [rleStuff, hi, hn, hr]
          · have h255 : n ≤ 255 := by simp at h; omega
            simp [rleStuff, hi, hn, h255, hr]

/-! ## `get_input_media_from_file_id` (`src/pyrogram/client/ext/utils.py`) -/

/-- The media-type tags known to the client (`BaseClient.MEDIA_TYPE_ID`,
whose declaration lives outside `src/`; the set matches the tags dispatched
in `get_input_media_from_file_id`): 0/1/14 thumbnails and chat photos,
2 photo, 3/4/5/8/9/10/13 document-like media. -/
def supportedMediaTypes : List Nat := [0, 1, 2, 3, 4, 5, 8, 9, 10, 13, 14]

/-- Little-endian value of a byte list, as `struct.unpack` reads fields. -/
def leNat : List Nat → Nat
  | [] => 0
  | b :: rest => b + 256 * leNat rest

/-- Two's-complement reading of a `w`-bit little-endian field (`i`/`q`
formats are signed). -/
def toSigned (w : Nat) (n : Nat) : Int :=
  if n < 2 ^ (w - 1) then (n : Int) else (n : Int) - 2 ^ w

/-- `struct.unpack("<iiqq", s)`: `none` models `struct.error` on a buffer
whose size is not exactly 24. -/
def unpack_iiqq (s : List Nat) : Option (Int × Int × Int × Int) :=
  if s.length = 24 then
    some (toSigned 32 (leNat (s.take 4)),
      toSigned 32 (leNat ((s.drop 4).take 4)),
      toSigned 64 (leNat ((s.drop 8).take 8)),
      toSigned 64 (leNat ((s.drop 16).take 8)))
  else none

/-- `struct.unpack("<iiqqc", s)`: 25 bytes, the trailing `c` field is the
`thumb_size` byte. -/
def unpack_iiqqc (s : List Nat) : Option (Int × Int × Int × Int × Nat) :=
  if s.length = 25 then
    some (toSigned 32 (leNat (s.take 4)),
      toSigned 32 (leNat ((s.drop 4).take 4)),
      toSigned 64 (leNat ((s.drop 8).take 8)),
      toSigned 64 (leNat ((s.drop 16).take 8)),
      s.getD 24 0)
  else none

/-- Return value of `get_input_media_from_file_id`:
`types.InputMediaPhoto(id=InputPhoto(id, access_hash, b""))` or
`types.InputMediaDocument(id=InputDocument(id, access_hash, b""))`. -/
inductive InputMedia
  | photo (fileId accessHash : Int)
  | document (fileId accessHash : Int)
deriving DecidableEq

/-- Failure modes of `get_input_media_from_file_id`.  All are `ValueError`
except `indexError` (`decoded[0]` on an empty byte string) and `structError`
(`struct.unpack` on a wrong-size buffer), which escape the function
untyped. -/
inductive MediaErr
  | decodeFailed
  | indexError
  | expectedMismatch
  | downloadOnly
  | unknownMediaType
  | structError
deriving DecidableEq

def MediaErr.isValueError : MediaErr → Bool
  | .indexError => false
  | .structError => false
  | _ => true

/-- The tag dispatch of `get_input_media_from_file_id` after a successful
decode (`media_type = decoded[0]` and the `if media_type ...` chain). -/
def mediaDispatch (decoded : List Nat) (media_type : Nat) :
    Except MediaErr InputMedia :=
  if media_type = 0 ∨ media_type = 1 ∨ media_type = 14 then
    .error .downloadOnly
  else if media_type = 2 then
    match unpack_iiqqc decoded with
    | some (_, _, file_id, access_hash, _) => .ok (.photo file_id access_hash)
    | none => .error .structError
  else if media_type = 3 ∨ media_type = 4 ∨ media_type = 5 ∨
      media_type = 8 ∨ media_type = 9 ∨ media_type = 10 ∨
      media_type = 13 then
    match unpack_iiqq decoded with
    | some (_, _, file_id, access_hash) => .ok (.document file_id access_hash)
    | none => .error .structError
  else
    .error .unknownMediaType

/-- `utils.get_input_media_from_file_id`: decode (any failure re-raised as
`ValueError`), optional expected-tag check, then the tag dispatch. -/
def get_input_media_from_file_id (file_id_str : List Char)
    (expected_media_type : Option Nat) : Except MediaErr InputMedia :=
  match decode file_id_str with
  | none => .error .decodeFailed
  | some decoded =>
    match decoded.head? with
    | none => .error .indexError
    | some media_type =>
      match expected_media_type with
      | some expected =>
        if media_type ≠ expected then .error .expectedMismatch
        else mediaDispatch decoded media_type
      | none => mediaDispatch decoded media_type

/-! ## Claims C6 and C9 -/

/-- C9: the file-id byte-stuffing encoder is partial.  For every byte string
whose zero runs are all at most 255 long (no 256 consecutive zero bytes as an
infix), `encode` succeeds and `decode` inverts it; for any byte string
containing a run of 256 consecutive zero bytes, `encode` fails, because a
run length is emitted as a single byte. -/
theorem c9_encode_partiality :
    (∀ s : List Nat, (∀ b ∈ s, b < 256) →
        ¬ List.IsInfix (List.replicate 256 0) s →
        ∃ cs, encode s = some cs ∧ decode cs = some s) ∧
      (∀ s : List Nat, List.IsInfix (List.replicate 256 0) s →
        encode s = none) := by
  constructor
  · intro s hb hinf
    rcases h : rleStuff s 0 with _ | r
    · exfalso
      have := infix_of_rleStuff_none s 0 h
      rw [List.replicate_zero, List.nil_append] at this
      exact hinf this
    · refine ⟨(b64EncChunks r).map b64Char, ?_, ?_⟩
      · rw [encode, h, Option.map_some']
      · exact decode_encode_of_stuff s r hb h
  · intro s hinf
    rw [encode, rleStuff_none_of_infix s hinf 0, Option.map_none']

/-- Witness for C9 at concrete inputs: `[1, 0, 3]` round-trips, while 256
zero bytes make `encode` fail. -/
theorem c9_encode_partiality_witness :
    (∃ cs, encode [1, 0, 3] = some cs ∧ decode cs = some [1, 0, 3]) ∧
      encode (List.replicate 256 0) = none :=
  ⟨c9_encode_partiality.1 [1, 0, 3] (by decide) (by decide),
    c9_encode_partiality.2 (List.replicate 256 0)
      ⟨[], [], by rw [List.nil_append, List.append_nil]⟩⟩

/-- C6: for every supported media-type tag, encoding a file-id's raw bytes
(at most 255 of them — actual file-ids are 24- or 25-byte packed structs)
and decoding the result yields the original bytes, and decoding a string
whose first decoded byte is an unsupported tag makes
`get_input_media_from_file_id` fail with a `ValueError`. -/
theorem c6_file_id_roundtrip_unknown_tag :
    (∀ t ∈ supportedMediaTypes, ∀ s : List Nat, s.head? = some t →
        (∀ b ∈ s, b < 256) → s.length ≤ 255 →
        ∃ cs, encode s = some cs ∧ decode cs = some s) ∧
      (∀ (cs : List Char) (s : List Nat) (t : Nat), decode cs = some s →
        s.head? = some t → t ∉ supportedMediaTypes →
        ∃ e, get_input_media_from_file_id cs none = Except.error e ∧
          e.isValueError = true) := by
  constructor
  · intro t _ s _ hb hlen
    have hsome := rleStuff_isSome_of_length s 0 (by omega)
    rcases h : rleStuff s 0 with _ | r
    · rw [h] at hsome; exact absurd hsome (by simp)
    · refine ⟨(b64EncChunks r).map b64Char, ?_, ?_⟩
      · rw [encode, h, Option.map_some']
      · exact decode_encode_of_stuff s r hb h
  · intro cs s t hdec hhead hmem
    refine ⟨.unknownMediaType, ?_, rfl⟩
    have h1 : ¬(t = 0 ∨ t = 1 ∨ t = 14) := by
      simp [supportedMediaTypes] at hmem; omega
    have h2 : ¬t = 2 := by
      simp [supportedMediaTypes] at hmem; omega
    have h3 : ¬(t = 3 ∨ t = 4 ∨ t = 5 ∨ t = 8 ∨ t = 9 ∨ t = 10 ∨ t = 13) := by
      simp [supportedMediaTypes] at hmem; omega
    rw [get_input_media_from_file_id, hdec]
    simp only [hhead]
    rw [mediaDispatch, if_neg h1, if_neg h2, if_neg h3]

/-- Witness for C6: tag 3 (voice) round-trips on a concrete file-id byte
string, and the unsupported tag 6 is rejected with a `ValueError` (the
string decodes to the single byte `6`). -/
theorem c6_file_id_roundtrip_unknown_tag_witness :
    (∃ cs, encode [3, 0, 7] = some cs ∧ decode cs = some [3, 0, 7]) ∧
      (∃ e, get_input_media_from_file_id ['B', 'g', 'I'] none =
          Except.error e ∧ e.isValueError = true) :=
  ⟨c6_file_id_roundtrip_unknown_tag.1 3 (by decide) [3, 0, 7] rfl
      (by decide) (by decide),
    c6_file_id_roundtrip_unknown_tag.2 ['B', 'g', 'I'] [6] 6 (by decide) rfl
      (by decide)⟩

/-! ## `Client.fetch_peers` (`src/pyrogram/client/client.py`, lines 762-825)

Raw user/chat records as the harvesting loop distinguishes them:
`types.User`, `types.Chat`/`types.ChatForbidden` (basic groups, handled
identically), `types.Channel`/`types.ChannelForbidden` (channels and
supergroups, `username` read with `getattr`), and anything else (skipped by
the final `else: continue`).  `access_hash` is optional in the schema for
`User` and `Channel`, which is exactly the min-peer situation. -/

inductive RawPeer
  | user (id : Nat) (access_hash : Option Int) (username : Option String)
      (phone : Option String) (bot : Bool)
  | chat (id : Nat)
  | channel (id : Nat) (access_hash : Option Int) (username : Option String)
      (broadcast : Bool)
  | other
deriving DecidableEq

/-- One row of `parsed_peers`, as passed to `storage.update_peers`. -/
structure ParsedPeer where
  peerId : Int
  accessHash : Int
  peerType : String
  username : Option String
  phoneNumber : Option String
deriving DecidableEq

/-- Number of decimal digits of `n`, i.e. `len(str(n))` for a natural. -/
def decimalLen (n : Nat) : Nat := if n = 0 then 1 else Nat.log 10 n + 1

/-- `int("-100" + str(peer.id))`: the channel-marked id. -/
def channelMarkedId (n : Nat) : Int :=
  -(Int.ofNat (100 * 10 ^ decimalLen n + n))

/-- The body of the `for peer in peers` loop of `fetch_peers`, with the
`is_min` flag threaded through; records with an absent credential set the
flag and are skipped (`continue`), everything parseable is appended. -/
def fetch_peers_aux : List RawPeer → Bool → List ParsedPeer × Bool
  | [], is_min => ([], is_min)
  | RawPeer.user id access_hash username phone bot :: rest, is_min =>
    match access_hash with
    | none => fetch_peers_aux rest true
    | some h =>
      let r := fetch_peers_aux rest is_min
      (⟨(id : Int), h, if bot then "bot" else "user",
        username.map String.toLower, phone⟩ :: r.1, r.2)
  | RawPeer.chat id :: rest, is_min =>
    let r := fetch_peers_aux rest is_min
    (⟨-(id : Int), 0, "group", none, none⟩ :: r.1, r.2)
  | RawPeer.channel id access_hash username broadcast :: rest, is_min =>
    match access_hash with
    | none => fetch_peers_aux rest true
    | some h =>
      let r := fetch_peers_aux rest is_min
      (⟨channelMarkedId id, h, if broadcast then "channel" else "supergroup",
        username.map String.toLower, none⟩ :: r.1, r.2)
  | RawPeer.other :: rest, is_min => fetch_peers_aux rest is_min

/-- `Client.fetch_peers`: first component is the `parsed_peers` batch
committed via `storage.update_peers`, second is the returned `is_min`
flag. -/
def fetch_peers (peers : List RawPeer) : List ParsedPeer × Bool :=
  fetch_peers_aux peers false

/-- A record whose access credential is absent (a min peer): only `User`
and `Channel`/`ChannelForbidden` records can be in this situation. -/
def isMinRecord : RawPeer → Bool
  | .user _ none _ _ _ => true
  | .channel _ none _ _ => true
  | _ => false

/-- Per-record commit: what a single record contributes to the cache
update (`none` = excluded). -/
def parsePeer : RawPeer → Option ParsedPeer
  | .user id (some h) username phone bot =>
    some ⟨(id : Int), h, if bot then "bot" else "user",
      username.map String.toLower, phone⟩
  | .user _ none _ _ _ => none
  | .chat id => some ⟨-(id : Int), 0, "group", none, none⟩
  | .channel id (some h) username broadcast =>
    some ⟨channelMarkedId id, h, if broadcast then "channel" else "supergroup",
      username.map String.toLower, none⟩
  | .channel _ none _ _ => none
  | .other => none

theorem fetch_peers_aux_fst :
    ∀ (l : List RawPeer) (b : Bool),
      (fetch_peers_aux l b).1 = l.filterMap parsePeer
  | [], _ => rfl
  | RawPeer.user id ah username phone bot :: rest, b => by
      cases ah with
      | none =>
          simp [fetch_peers_aux, parsePeer, fetch_peers_aux_fst rest true]
      | some h =>
          simp [fetch_peers_aux, parsePeer, fetch_peers_aux_fst rest b]
  | RawPeer.chat id :: rest, b => by
      simp [fetch_peers_aux, parsePeer, fetch_peers_aux_fst rest b]
  | RawPeer.channel id ah username broadcast :: rest, b => by
      cases ah with
      | none =>
          simp [fetch_peers_aux, parsePeer, fetch_peers_aux_fst rest true]
      | some h =>
          simp [fetch_peers_aux, parsePeer, fetch_peers_aux_fst rest b]
  | RawPeer.other :: rest, b => by
      simp [fetch_peers_aux, parsePeer, fetch_peers_aux_fst rest b]

theorem fetch_peers_aux_snd :
    ∀ (l : List RawPeer) (b : Bool),
      (fetch_peers_aux l b).2 = (b || l.any isMinRecord)
  | [], b => by simp [fetch_peers_aux]
  | RawPeer.user id ah username phone bot :: rest, b => by
      cases ah with
      | none =>
          simp only [fetch_peers_aux, fetch_peers_aux_snd rest true,
            List.any_cons, isMinRecord]
          simp
      | some h =>
          simp only [fetch_peers_aux, fetch_peers_aux_snd rest b,
            List.any_cons, isMinRecord]
          simp
  | RawPeer.chat id :: rest, b => by
      simp only [fetch_peers_aux, fetch_peers_aux_snd rest b,
        List.any_cons, isMinRecord]
      simp
  | RawPeer.channel id ah username broadcast :: rest, b => by
      cases ah with
      | none =>
          simp only [fetch_peers_aux, fetch_peers_aux_snd rest true,
            List.any_cons, isMinRecord]
          simp
      | some h =>
          simp only [fetch_peers_aux, fetch_peers_aux_snd rest b,
            List.any_cons, isMinRecord]
          simp
  | RawPeer.other :: rest, b => by
      simp only [fetch_peers_aux, fetch_peers_aux_snd rest b,
        List.any_cons, isMinRecord]
      simp

/-! ## Claims C5 and C10 -/

/-- C5: `fetch_peers` excludes exactly the records with an absent access
credential while the rest of the batch still commits (the committed batch is
the record-wise parse of the input), and it returns `true` iff at least one
record was excluded this way; a batch with zero such records returns
`false`. -/
theorem c5_fetch_peers_min_signal :
    ∀ peers : List RawPeer,
      ((fetch_peers peers).2 = true ↔ ∃ p ∈ peers, isMinRecord p = true) ∧
        (fetch_peers peers).1 = peers.filterMap parsePeer ∧
        ∀ p : RawPeer, isMinRecord p = true → parsePeer p = none := by
  intro peers
  refine ⟨?_, fetch_peers_aux_fst peers false, ?_⟩
  · rw [fetch_peers, fetch_peers_aux_snd peers false, Bool.false_or,
      List.any_eq_true]
  · intro p hp
    cases p with
    | user id ah username phone bot =>
        cases ah with
        | none => rfl
        | some h => exact absurd hp (by simp [isMinRecord])
    | chat id => exact absurd hp (by simp [isMinRecord])
    | channel id ah username broadcast =>
        cases ah with
        | none => rfl
        | some h => exact absurd hp (by simp [isMinRecord])
    | other => exact absurd hp (by simp [isMinRecord])

/-- Witness for C5 on concrete batches: a batch with one credential-less
user record returns `true` and commits only the other records; a batch with
no such record returns `false`. -/
theorem c5_fetch_peers_min_signal_witness :
    (fetch_peers [RawPeer.user 7 none none none false,
        RawPeer.user 8 (some 99) none none false]).2 = true ∧
      (fetch_peers [RawPeer.user 7 none none none false,
        RawPeer.user 8 (some 99) none none false]).1 =
        [⟨8, 99, "user", none, none⟩] ∧
      (fetch_peers [RawPeer.user 8 (some 99) none none false,
        RawPeer.chat 5]).2 = false :=
  ⟨(c5_fetch_peers_min_signal _).1.mpr
      ⟨RawPeer.user 7 none none none false, by decide, rfl⟩,
    by decide, by decide⟩

/-- C10: every basic-group record is committed with its id negated and an
access credential of exactly 0, and the min-peer flag can only be set by a
user or channel record with an absent credential — never by a basic-group
record. -/
theorem c10_basic_group_never_min :
    (∀ (peers : List RawPeer) (id : Nat), RawPeer.chat id ∈ peers →
        (⟨-(id : Int), 0, "group", none, none⟩ : ParsedPeer) ∈
          (fetch_peers peers).1) ∧
      (∀ id : Nat, isMinRecord (RawPeer.chat id) = false) ∧
      ∀ peers : List RawPeer, (fetch_peers peers).2 = true →
        ∃ p ∈ peers,
          (∃ i u ph b, p = RawPeer.user i none u ph b) ∨
            ∃ i u b, p = RawPeer.channel i none u b := by
  refine ⟨?_, fun _ => rfl, ?_⟩
  · intro peers id hmem
    rw [fetch_peers, fetch_peers_aux_fst peers false]
    exact List.mem_filterMap.mpr ⟨RawPeer.chat id, hmem, rfl⟩
  · intro peers hflag
    rw [fetch_peers, fetch_peers_aux_snd peers false, Bool.false_or,
      List.any_eq_true] at hflag
    rcases hflag with ⟨p, hp, hmin⟩
    refine ⟨p, hp, ?_⟩
    cases p with
    | user id ah username phone bot =>
        cases ah with
        | none => exact Or.inl ⟨id, username, phone, bot, rfl⟩
        | some h => exact absurd hmin (by simp [isMinRecord])
    | chat id => exact absurd hmin (by simp [isMinRecord])
    | channel id ah username broadcast =>
        cases ah with
        | none => exact Or.inr ⟨id, username, broadcast, rfl⟩
        | some h => exact absurd hmin (by simp [isMinRecord])
    | other => exact absurd hmin (by simp [isMinRecord])

/-- Witness for C10: the basic group with raw id 5 is committed as
`(-5, 0, "group")`, and a batch whose min flag is set indeed contains a
credential-less user record. -/
theorem c10_basic_group_never_min_witness :
    (⟨-5, 0, "group", none, none⟩ : ParsedPeer) ∈
        (fetch_peers [RawPeer.chat 5, RawPeer.user 8 (some 99) none none
          false]).1 ∧
      ∃ p ∈ [RawPeer.user 7 none none none false],
        (∃ i u ph b, p = RawPeer.user i none u ph b) ∨
          ∃ i u b, p = RawPeer.channel i none u b :=
  ⟨c10_basic_group_never_min.1
      [RawPeer.chat 5, RawPeer.user 8 (some 99) none none false] 5
      (by decide),
    c10_basic_group_never_min.2.2 [RawPeer.user 7 none none none false]
      (by decide)⟩

/-! ## `Client.resolve_peer` (`src/pyrogram/client/client.py`, lines 1249-1329) -/

/-- A resolved peer reference (the `InputPeer` TL union).  `InputPeerSelf`
carries no fields; modelled from the TL schema, since the generated
`pyrogram.api.types` package is not under `src/`. -/
inductive InputPeer
  | self
  | user (user_id : Int) (access_hash : Int)
  | chat (chat_id : Int)
  | channel (channel_id : Int) (access_hash : Int)
deriving DecidableEq

/-- Modelled from the spec: the peer cache behind `self.storage` — "keyed by
numeric id, secondarily indexed by username and phone" (§3); the storage
module itself is not under `src/`.  A lookup with a key of the wrong kind
(e.g. `get_peer_by_id("me")`) misses. -/
structure PeerStorage where
  byId : Int → Option InputPeer
  byUsername : String → Option InputPeer
  byPhone : String → Option InputPeer

/-- `storage.get_peer_by_id` on the raw argument, which may be an `int` or a
`str`. -/
inductive PeerIdent
  | num (n : Int)
  | str (s : String)

def get_peer_by_id (st : PeerStorage) : PeerIdent → Option InputPeer
  | .num n => st.byId n
  | .str _ => none

/-- How `resolve_peer` can fail: the typed `PeerIdInvalid` RPC error, the
bare `KeyError` of an uncaught cache miss, or the `ValueError` of
`int(str(peer_id)[4:])` on the degenerate id `-100`. -/
inductive ResolveErr
  | peerIdInvalid
  | keyError
  | valueError
deriving DecidableEq

/-- The network fallbacks `resolve_peer` can issue; their peer-harvesting
side effect on the cache is a parameter of the model. -/
inductive ResolveReq
  | resolveUsername (username : String)
  | getUsers (user_id : Int)
  | getChannels (channel_id : Nat)
  | getChats (chat_id : Int)

/-- ASCII `str.lower` on one character. -/
def pyLowerChar (c : Char) : Char :=
  if 'A' ≤ c ∧ c ≤ 'Z' then Char.ofNat (c.toNat + 32) else c

/-- `re.sub(r"[@+\s]", "", peer_id.lower())`. -/
def normalizeIdent (s : String) : String :=
  String.mk ((s.toList.map pyLowerChar).filter
    (fun c => ¬(c = '@' ∨ c = '+' ∨ c.isWhitespace)))

/-- Whether `int(s)` succeeds on an ASCII string (optional sign followed by
at least one digit). -/
def isPyIntString (s : String) : Bool :=
  match s.toList with
  | [] => false
  | '-' :: rest => rest ≠ [] && rest.all Char.isDigit
  | l => l.all Char.isDigit

/-- The fallback request chosen for an uncached numeric id: `GetUsers` with
a zero access hash for positive ids, `GetChannels` on
`int(str(peer_id)[4:])` for ids with the `-100` decimal prefix, `GetChats`
otherwise. -/
def numericFallbackReq (n : Int) : Except ResolveErr ResolveReq :=
  if n > 0 then Except.ok (ResolveReq.getUsers n)
  else if (toString n).startsWith "-100" then
    match ((toString n).drop 4).toNat? with
    | some c => Except.ok (ResolveReq.getChannels c)
    | none => Except.error ResolveErr.valueError
  else Except.ok (ResolveReq.getChats (-n))

/-- `Client.resolve_peer`.  `net st r` is the cache after the harvesting
side effect of sending request `r` (inside `send`/`fetch_peers`). -/
def resolve_peer (st : PeerStorage)
    (net : PeerStorage → ResolveReq → PeerStorage) :
    PeerIdent → Except ResolveErr InputPeer
  | .str s =>
    match get_peer_by_id st (.str s) with
    | some p => .ok p
    | none =>
      if s = "self" ∨ s = "me" then .ok .self
      else
        let s' := normalizeIdent s
        if isPyIntString s' then
          match st.byPhone s' with
          | some p => .ok p
          | none => .error .peerIdInvalid
        else
          match st.byUsername s' with
          | some p => .ok p
          | none =>
            match (net st (.resolveUsername s')).byUsername s' with
            | some p => .ok p
            | none => .error .keyError
  | .num n =>
    match get_peer_by_id st (.num n) with
    | some p => .ok p
    | none =>
      match numericFallbackReq n with
      | .error e => .error e
      | .ok r =>
        match (net st r).byId n with
        | some p => .ok p
        | none => .error .peerIdInvalid

/-- A cache with no entries at all. -/
def emptyStorage : PeerStorage :=
  ⟨fun _ => none, fun _ => none, fun _ => none⟩

/-- A network whose requests populate nothing. -/
def idNet : PeerStorage → ResolveReq → PeerStorage := fun st _ => st

/-! ## Claim C3 -/

/-- C3 counterexample: a username that is still unresolved after the
`ResolveUsername` fallback does NOT fail with `PeerIdInvalid`; the second
`get_peer_by_username` miss raises a bare `KeyError` (line 1291 has no
`try`/`except` around it), contrary to the claim. -/
theorem c3_counterexample :
    resolve_peer emptyStorage idNet (PeerIdent.str "foo") =
        Except.error ResolveErr.keyError ∧
      resolve_peer emptyStorage idNet (PeerIdent.str "foo") ≠
        Except.error ResolveErr.peerIdInvalid := by
  constructor
  · rfl
  · intro h
    rw [show resolve_peer emptyStorage idNet (PeerIdent.str "foo") =
        Except.error ResolveErr.keyError from rfl] at h
    exact ResolveErr.noConfusion (Except.error.inj h)

/-- C3 amended: an unresolved phone-number string and an unresolved numeric
id fail with the typed `PeerIdInvalid`; an unresolved username instead
escapes with the untyped `KeyError` cache miss of the post-fallback
retry. -/
theorem c3_resolve_peer_unresolved :
    (∀ (st : PeerStorage) (net : PeerStorage → ResolveReq → PeerStorage)
        (s : String), ¬(s = "self" ∨ s = "me") →
        isPyIntString (normalizeIdent s) = true →
        st.byPhone (normalizeIdent s) = none →
        resolve_peer st net (PeerIdent.str s) =
          Except.error ResolveErr.peerIdInvalid) ∧
      (∀ (st : PeerStorage) (net : PeerStorage → ResolveReq → PeerStorage)
        (s : String), ¬(s = "self" ∨ s = "me") →
        isPyIntString (normalizeIdent s) = false →
        st.byUsername (normalizeIdent s) = none →
        (net st (ResolveReq.resolveUsername (normalizeIdent s))).byUsername
          (normalizeIdent s) = none →
        resolve_peer st net (PeerIdent.str s) =
          Except.error ResolveErr.keyError) ∧
      ∀ (st : PeerStorage) (net : PeerStorage → ResolveReq → PeerStorage)
        (n : Int) (r : ResolveReq), st.byId n = none →
        numericFallbackReq n = Except.ok r →
        (net st r).byId n = none →
        resolve_peer st net (PeerIdent.num n) =
          Except.error ResolveErr.peerIdInvalid := by
  refine ⟨?_, ?_, ?_⟩
  · intro st net s hme hint hphone
    simp only [resolve_peer, get_peer_by_id, if_neg hme, hint, if_pos,
      hphone]
  · intro st net s hme hint huser huser2
    simp only [resolve_peer, get_peer_by_id, if_neg hme, hint,
      Bool.false_eq_true, if_false, huser, huser2]
  · intro st net n r hid hreq hid2
    simp only [resolve_peer, get_peer_by_id, hid, hreq, hid2]

/-- Witness for the amended C3 at concrete inputs: the phone number
`"12345"` and the positive id `42`, both absent from an empty cache that no
request repopulates. -/
theorem c3_resolve_peer_unresolved_witness :
    resolve_peer emptyStorage idNet (PeerIdent.str "12345") =
        Except.error ResolveErr.peerIdInvalid ∧
      resolve_peer emptyStorage idNet (PeerIdent.num 42) =
        Except.error ResolveErr.peerIdInvalid :=
  ⟨c3_resolve_peer_unresolved.1 emptyStorage idNet "12345" (by decide)
      (by decide) rfl,
    c3_resolve_peer_unresolved.2.2 emptyStorage idNet 42
      (ResolveReq.getUsers 42) rfl rfl rfl⟩

/-! ## `Client.save_file` (`src/pyrogram/client/client.py`, lines 1331-1486)

The upload strategy machinery.  The file is a byte list; `f.read(part_size)`
from `f.seek(part_size * file_part)` becomes chunking of
`file.drop (part_size * file_part)`.  MD5 is a standard-library call: its
state is represented by the exact byte string fed to `update` (the digest is
a function of those bytes).  Progress callbacks perform no state change
relevant to this claim and are omitted. -/

/-- One queued upload RPC. -/
inductive UploadRpc
  | saveFilePart (file_id : Nat) (file_part : Nat) (bytes : List Nat)
  | saveBigFilePart (file_id : Nat) (file_part : Nat)
      (file_total_parts : Nat) (bytes : List Nat)
deriving DecidableEq

/-- `types.InputFile` / `types.InputFileBig`; the md5 checksum field carries
the bytes that were hashed. -/
inductive InputFileResult
  | inputFile (id : Nat) (parts : Nat) (md5Input : List Nat)
  | inputFileBig (id : Nat) (parts : Nat)
deriving DecidableEq

/-- How the chunk loop ended: normally, by the `if is_missing_part: return`
early exit, or by the `AttributeError` of finalizing a `None` md5 (resumed
small upload whose seek position is already at end of file), which the
generic `except Exception` handler logs. -/
inductive SaveExit
  | finished
  | earlyReturn
  | crashed
deriving DecidableEq

/-- Split a byte list into `partSize` chunks (the repeated `f.read`);
fuelled by the list length. -/
def chunksAux (partSize : Nat) : Nat → List Nat → List (List Nat)
  | 0, _ => []
  | _ + 1, [] => []
  | fuel + 1, b :: bs =>
      (b :: bs).take partSize :: chunksAux partSize fuel ((b :: bs).drop partSize)

def chunkSplit (partSize : Nat) (bs : List Nat) : List (List Nat) :=
  chunksAux partSize bs.length bs

/-- The `while True` read loop of `save_file`: returns the queued RPCs, the
final md5 state and how the loop exited. -/
def saveLoop (is_big is_missing_part : Bool) (file_id file_total_parts : Nat) :
    List (List Nat) → Nat → Option (List Nat) →
      List UploadRpc × Option (List Nat) × SaveExit
  | [], _, md5_sum =>
      ([], md5_sum,
        if is_big = false ∧ md5_sum = none then SaveExit.crashed
        else SaveExit.finished)
  | chunk :: rest, file_part, md5_sum =>
      let rpc := if is_big then
          UploadRpc.saveBigFilePart file_id file_part file_total_parts chunk
        else UploadRpc.saveFilePart file_id file_part chunk
      if is_missing_part then ([rpc], md5_sum, SaveExit.earlyReturn)
      else
        let md5' := if is_big then md5_sum else md5_sum.map (fun m => m ++ chunk)
        let r := saveLoop is_big is_missing_part file_id file_total_parts
          rest (file_part + 1) md5'
        (rpc :: r.1, r.2.1, r.2.2)

/-- `ValueError`s raised before any transfer starts. -/
inductive SaveErr
  | fileSizeZero
  | fileTooBig
deriving DecidableEq

/-- Observable outcome of one `save_file` call. -/
structure SaveFileRun where
  is_big : Bool
  pool : Nat
  workers_count : Nat
  workers : List Nat
  queue_capacity : Nat
  file_total_parts : Nat
  queued : List UploadRpc
  md5_input : Option (List Nat)
  result : Option InputFileResult
  poison : Nat
deriving DecidableEq

/-- The body of `Client.save_file` past the two size `ValueError` checks;
`rnd_id` stands for the `self.rnd_id()` draw used when no `file_id` is
passed. -/
def save_file_run (file : List Nat) (file_id : Option Nat) (file_part : Nat)
    (rnd_id : Nat) : SaveFileRun :=
  let part_size := 512 * 1024
  let file_size := file.length
  let file_total_parts := (file_size + part_size - 1) / part_size
    let is_big : Bool := decide (10 * 1024 * 1024 < file_size)
    let pool_size := if is_big then 3 else 1
    let workers_count := if is_big then 4 else 1
    let is_missing_part : Bool := file_id.isSome
    let fid := file_id.getD rnd_id
    let md5_sum : Option (List Nat) :=
      if is_big = false ∧ is_missing_part = false then some [] else none
    let workers := (List.range pool_size).flatMap
      (fun s => List.replicate workers_count s)
    let chunks := chunkSplit part_size (file.drop (part_size * file_part))
    let r := saveLoop is_big is_missing_part fid file_total_parts chunks
      file_part md5_sum
    let result : Option InputFileResult :=
      match r.2.2 with
      | SaveExit.earlyReturn => none
      | SaveExit.crashed => none
      | SaveExit.finished =>
        if is_big then some (InputFileResult.inputFileBig fid file_total_parts)
        else some (InputFileResult.inputFile fid file_total_parts
          ((r.2.1).getD []))
    { is_big := is_big
      pool := pool_size
      workers_count := workers_count
      workers := workers
      queue_capacity := 16
      file_total_parts := file_total_parts
      queued := r.1
      md5_input := r.2.1
      result := result
      poison := workers.length }

/-- `Client.save_file`: the `ValueError` guards on the file size, then the
strategy selection and chunk loop. -/
def save_file (file : List Nat) (file_id : Option Nat) (file_part : Nat)
    (rnd_id : Nat) : Except SaveErr SaveFileRun :=
  if file.length = 0 then Except.error SaveErr.fileSizeZero
  else if 1500 * 1024 * 1024 < file.length then Except.error SaveErr.fileTooBig
  else Except.ok (save_file_run file file_id file_part rnd_id)

theorem saveLoop_md5_none (is_big is_missing_part : Bool)
    (file_id file_total_parts : Nat) :
    ∀ (chunks : List (List Nat)) (fp : Nat),
      (saveLoop is_big is_missing_part file_id file_total_parts chunks fp
        none).2.1 = none
  | [], _ => rfl
  | chunk :: rest, fp => by
      have ih := saveLoop_md5_none is_big is_missing_part file_id
        file_total_parts rest (fp + 1)
      cases is_missing_part with
      | true => simp [saveLoop]
      | false =>
        cases is_big with
        | true => simp [saveLoop, ih]
        | false => simp [saveLoop, ih]

theorem saveLoop_small_fresh (file_id file_total_parts : Nat) :
    ∀ (chunks : List (List Nat)) (fp : Nat) (acc : List Nat),
      (saveLoop false false file_id file_total_parts chunks fp
          (some acc)).2.1 = some (acc ++ chunks.flatten) ∧
        (saveLoop false false file_id file_total_parts chunks fp
          (some acc)).2.2 = SaveExit.finished
  | [], _, acc => by simp [saveLoop]
  | chunk :: rest, fp, acc => by
      have ih := saveLoop_small_fresh file_id file_total_parts rest (fp + 1)
        (acc ++ chunk)
      simp [saveLoop, ih.1, ih.2]

theorem chunksAux_join (partSize : Nat) (hp : 0 < partSize) :
    ∀ (fuel : Nat) (bs : List Nat), bs.length ≤ fuel →
      (chunksAux partSize fuel bs).flatten = bs
  | 0, bs, h => by
      have : bs = [] := List.eq_nil_of_length_eq_zero (by omega)
      subst this; rfl
  | fuel + 1, [], _ => rfl
  | fuel + 1, b :: bs, h => by
      have hlen : ((b :: bs).drop partSize).length ≤ fuel := by
        simp only [List.length_drop, List.length_cons]
        simp only [List.length_cons] at h
        omega
      simp only [chunksAux, List.flatten_cons,
        chunksAux_join partSize hp fuel ((b :: bs).drop partSize) hlen]
      exact List.take_append_drop partSize (b :: bs)

theorem chunkSplit_join (partSize : Nat) (hp : 0 < partSize) (bs : List Nat) :
    (chunkSplit partSize bs).flatten = bs :=
  chunksAux_join partSize hp bs.length bs le_rfl

/-! ## Claim C1 -/

theorem save_file_ok (file : List Nat) (fid : Option Nat) (fpart rnd : Nat)
    (h0 : ¬file.length = 0) (h1 : ¬1500 * 1024 * 1024 < file.length) :
    save_file file fid fpart rnd =
      Except.ok (save_file_run file fid fpart rnd) := by
  rw [save_file, if_neg h0, if_neg h1]

theorem save_file_run_big (file : List Nat) (fid : Option Nat)
    (fpart rnd : Nat) (hbig : 10 * 1024 * 1024 < file.length) :
    (save_file_run file fid fpart rnd).is_big = true ∧
      (save_file_run file fid fpart rnd).pool = 3 ∧
      (save_file_run file fid fpart rnd).workers_count = 4 ∧
      (save_file_run file fid fpart rnd).workers.length = 12 ∧
      (save_file_run file fid fpart rnd).queue_capacity = 16 ∧
      (save_file_run file fid fpart rnd).md5_input = none := by
  have hb : (decide (10 * 1024 * 1024 < file.length) : Bool) = true :=
    decide_eq_true hbig
  refine ⟨?_, ?_, ?_, ?_, rfl, ?_⟩
  · simp only [save_file_run, hb]
  · simp only [save_file_run, hb]
    rfl
  · simp only [save_file_run, hb]
    rfl
  · simp only [save_file_run, hb]
    rfl
  · simp only [save_file_run, hb, Option.getD_none]
    rw [show (if (true : Bool) = false ∧ (fid.isSome : Bool) = false then
      some ([] : List Nat) else none) = none from by simp]
    exact saveLoop_md5_none true _ _ _ _ _

theorem save_file_run_small (file : List Nat) (fid : Option Nat)
    (fpart rnd : Nat) (hsmall : ¬10 * 1024 * 1024 < file.length) :
    (save_file_run file fid fpart rnd).is_big = false ∧
      (save_file_run file fid fpart rnd).pool = 1 ∧
      (save_file_run file fid fpart rnd).workers_count = 1 ∧
      (save_file_run file fid fpart rnd).workers.length = 1 ∧
      (save_file_run file fid fpart rnd).queue_capacity = 16 := by
  have hb : (decide (10 * 1024 * 1024 < file.length) : Bool) = false :=
    decide_eq_false hsmall
  refine ⟨?_, ?_, ?_, ?_, rfl⟩
  · simp only [save_file_run, hb]
  · simp only [save_file_run, hb]
    rfl
  · simp only [save_file_run, hb]
    rfl
  · simp only [save_file_run, hb]
    rfl

theorem save_file_run_md5_fresh (file : List Nat) (fpart rnd : Nat)
    (hsmall : ¬10 * 1024 * 1024 < file.length) :
    (save_file_run file none fpart rnd).md5_input =
      some (file.drop (512 * 1024 * fpart)) := by
  have hb : (decide (10 * 1024 * 1024 < file.length) : Bool) = false :=
    decide_eq_false hsmall
  simp only [save_file_run, hb, Option.isSome_none, Option.getD_none,
    and_self, if_true]
  have hloop := saveLoop_small_fresh rnd
    ((file.length + 512 * 1024 - 1) / (512 * 1024))
    (chunkSplit (512 * 1024) (file.drop (512 * 1024 * fpart))) fpart []
  rw [hloop.1, List.nil_append, chunkSplit_join (512 * 1024) (by norm_num)]

theorem save_file_run_md5_missing (file : List Nat) (k fpart rnd : Nat) :
    (save_file_run file (some k) fpart rnd).md5_input = none := by
  simp only [save_file_run, Option.isSome_some]
  rw [show (if (decide (10 * 1024 * 1024 < file.length) : Bool) = false ∧
      (true : Bool) = false then some ([] : List Nat) else none) = none
    from by simp]
  exact saveLoop_md5_none _ _ _ _ _ _

/-- C1 counterexample: an 11 MiB upload creates 4 worker tasks **per pooled
session** (`for session in pool for _ in range(workers_count)`), i.e. 12
workers in total, not exactly 4 as claimed; and a resumed (`file_id`-passed)
1 MiB upload computes no MD5 checksum even though it is at most 10 MiB. -/
theorem c1_counterexample :
    (∃ run : SaveFileRun,
        save_file (List.replicate 11534336 1) none 0 7 = Except.ok run ∧
          run.pool = 3 ∧ run.queue_capacity = 16 ∧
          run.workers.length = 12 ∧ run.workers.length ≠ 4) ∧
      ∃ run : SaveFileRun,
        save_file (List.replicate 1048576 1) (some 5) 0 7 = Except.ok run ∧
          run.is_big = false ∧ run.md5_input = none := by
  have hlen1 : (List.replicate 11534336 (1 : Nat)).length = 11534336 :=
    List.length_replicate 11534336 1
  have hlen2 : (List.replicate 1048576 (1 : Nat)).length = 1048576 :=
    List.length_replicate 1048576 1
  constructor
  · have hbig : 10 * 1024 * 1024 < (List.replicate 11534336 (1 : Nat)).length := by
      rw [hlen1]; decide
    have hf := save_file_run_big (List.replicate 11534336 1) none 0 7 hbig
    refine ⟨save_file_run (List.replicate 11534336 1) none 0 7,
      save_file_ok _ _ _ _ (by rw [hlen1]; decide) (by rw [hlen1]; decide),
      hf.2.1, hf.2.2.2.2.1, hf.2.2.2.1, ?_⟩
    rw [hf.2.2.2.1]
    decide
  · have hsmall : ¬10 * 1024 * 1024 <
        (List.replicate 1048576 (1 : Nat)).length := by
      rw [hlen2]; decide
    exact ⟨save_file_run (List.replicate 1048576 1) (some 5) 0 7,
      save_file_ok _ _ _ _ (by rw [hlen2]; decide) (by rw [hlen2]; decide),
      (save_file_run_small _ _ _ _ hsmall).1,
      save_file_run_md5_missing _ 5 0 7⟩

/-- C1 amended: a file over 10 MiB selects the big-file strategy — a pool of
3 sessions, 4 workers per session (12 worker tasks in total) draining a
queue of capacity 16, and no checksum; a file of at most 10 MiB selects 1
session and 1 worker, and — only when the call is not a single-part resume
(`file_id is None`) — an MD5 checksum accumulated over every chunk read. -/
theorem c1_save_file_strategy :
    ∀ (file : List Nat) (file_id : Option Nat) (file_part rnd_id : Nat)
      (run : SaveFileRun),
      save_file file file_id file_part rnd_id = Except.ok run →
      (10 * 1024 * 1024 < file.length →
        run.is_big = true ∧ run.pool = 3 ∧ run.workers_count = 4 ∧
          run.workers.length = 12 ∧ run.queue_capacity = 16 ∧
          run.md5_input = none) ∧
      (¬10 * 1024 * 1024 < file.length →
        run.is_big = false ∧ run.pool = 1 ∧ run.workers_count = 1 ∧
          run.workers.length = 1 ∧ run.queue_capacity = 16) ∧
      (¬10 * 1024 * 1024 < file.length → file_id = none →
        run.md5_input = some (file.drop (512 * 1024 * file_part))) := by
  intro file file_id file_part rnd_id run h
  rw [save_file] at h
  split at h
  · exact Except.noConfusion h
  split at h
  · exact Except.noConfusion h
  rw [Except.ok.injEq] at h
  subst h
  refine ⟨fun hbig => save_file_run_big file file_id file_part rnd_id hbig,
    fun hsmall => save_file_run_small file file_id file_part rnd_id hsmall,
    fun hsmall hfid => ?_⟩
  subst hfid
  exact save_file_run_md5_fresh file file_part rnd_id hsmall

/-- Witness for the amended C1: a 3-byte fresh upload takes the small
strategy with one worker and hashes exactly the file's bytes. -/
theorem c1_save_file_strategy_witness :
    ∃ run : SaveFileRun, save_file [1, 2, 3] none 0 7 = Except.ok run ∧
      run.is_big = false ∧ run.pool = 1 ∧ run.workers_count = 1 ∧
      run.workers.length = 1 ∧ run.queue_capacity = 16 ∧
      run.md5_input = some [1, 2, 3] := by
  have h : save_file [1, 2, 3] none 0 7 =
      Except.ok (save_file_run [1, 2, 3] none 0 7) := by
    rw [save_file, if_neg (by decide), if_neg (by decide)]
  have hc := c1_save_file_strategy [1, 2, 3] none 0 7
    (save_file_run [1, 2, 3] none 0 7) h
  have h2 := hc.2.1 (by decide)
  have h3 := hc.2.2 (by decide) rfl
  exact ⟨save_file_run [1, 2, 3] none 0 7, h, h2.1, h2.2.1, h2.2.2.1,
    h2.2.2.2.1, h2.2.2.2.2, h3⟩

/-! ## `Client.get_file` (`src/pyrogram/client/client.py`, lines 1488-1701)

The chunked download loop and, above all, its exception handler
(lines 1690-1701): `except Exception as e:` — log unless the exception is
`Client.StopTransmission`, best-effort `os.remove` of the partial temp file,
`return ""`.  `Client.StopTransmission` is declared in the `BaseClient`
module (outside `src/`) as an `Exception` subclass; the `isinstance` test
inside this `except Exception` block is only reachable under that
hierarchy, and `save_file` guards it with an explicit
`except Client.StopTransmission: raise` clause placed before its own
`except Exception`.  The CDN branch re-raises into the same handler
(`except Exception as e: raise e`, lines 1688-1689), so one handler model
covers both paths. -/

instance instDecEqExcept {ε α : Type} [DecidableEq ε] [DecidableEq α] :
    DecidableEq (Except ε α) := fun x y =>
  match x, y with
  | .error a, .error b =>
    if h : a = b then isTrue (by rw [h])
    else isFalse (fun hh => h (Except.error.inj hh))
  | .ok a, .ok b =>
    if h : a = b then isTrue (by rw [h])
    else isFalse (fun hh => h (Except.ok.inj hh))
  | .error _, .ok _ => isFalse Except.noConfusion
  | .ok _, .error _ => isFalse Except.noConfusion

/-- Python exceptions reaching the download handler. -/
inductive PyExn
  | stopTransmission
  | rpcError (name : String)
  | otherExn (name : String)
deriving DecidableEq

/-- One step of the transfer as scripted by the environment: a
`types.upload.File` response carrying `r.bytes`, or an exception raised by
`session.send` or by the progress callback. -/
inductive TransferEvent
  | chunk (bytes : List Nat)
  | raiseExn (e : PyExn)
deriving DecidableEq

/-- The `while True` body of the plain download path: write each chunk to
the temp file, stop on an empty chunk (`if not chunk: break`); an exception
aborts with the partial contents written so far. -/
def getFileLoop : List TransferEvent → List Nat →
    Except (PyExn × List Nat) (List Nat)
  | [], written => Except.ok written
  | TransferEvent.chunk bs :: rest, written =>
      if bs = [] then Except.ok written
      else getFileLoop rest (written ++ bs)
  | TransferEvent.raiseExn e :: _, written => Except.error (e, written)

/-- What one `get_file` call does, observable from outside: the returned
value (`Except.error` = an exception propagated to the caller;
`Except.ok none` = the `""` empty result; `Except.ok (some bytes)` = the
temp file name holding `bytes`), whether the partial temp file was removed,
and whether `log.error` fired. -/
structure GetFileResult where
  returned : Except PyExn (Option (List Nat))
  tempRemoved : Bool
  errorLogged : Bool
deriving DecidableEq

/-- `Client.get_file` around the transfer loop: the `try/except/else` of
lines 1567-1701. -/
def get_file (script : List TransferEvent) : GetFileResult :=
  match getFileLoop script [] with
  | Except.ok contents => ⟨Except.ok (some contents), false, false⟩
  | Except.error (e, _) =>
      ⟨Except.ok none, true,
        match e with
        | PyExn.stopTransmission => false
        | _ => true⟩

/-! ## Claim C2 -/

/-- C2 counterexample: a transfer aborted by the cancellation sentinel
`StopTransmission` does NOT propagate out of `get_file`; the
`except Exception` handler catches it too (the `isinstance` test only skips
the logging), removes the temp file and returns the empty result. -/
theorem c2_counterexample :
    get_file [TransferEvent.chunk [9], TransferEvent.raiseExn
        PyExn.stopTransmission] =
      ⟨Except.ok none, true, false⟩ ∧
      (get_file [TransferEvent.chunk [9], TransferEvent.raiseExn
          PyExn.stopTransmission]).returned ≠
        Except.error PyExn.stopTransmission := by
  constructor
  · rfl
  · intro h
    rw [show (get_file [TransferEvent.chunk [9], TransferEvent.raiseExn
        PyExn.stopTransmission]).returned = Except.ok none from rfl] at h
    exact Except.noConfusion h

/-- C2 amended: any exception raised during the transfer — the cancellation
sentinel included — removes the partial temp file and makes `get_file`
return the empty result instead of propagating; the sentinel differs only
in that it is not logged as an error. -/
theorem c2_get_file_exceptions :
    ∀ (script : List TransferEvent) (e : PyExn) (written : List Nat),
      getFileLoop script [] = Except.error (e, written) →
      (get_file script).returned = Except.ok none ∧
        (get_file script).tempRemoved = true ∧
        ((get_file script).errorLogged = true ↔ e ≠ PyExn.stopTransmission) := by
  intro script e written h
  rw [get_file, h]
  refine ⟨rfl, rfl, ?_⟩
  cases e with
  | stopTransmission => simp
  | rpcError name => simp
  | otherExn name => simp

/-- Witness for the amended C2: a transfer that fails with an RPC error
after one chunk yields the empty result with the temp file removed and the
error logged. -/
theorem c2_get_file_exceptions_witness :
    (get_file [TransferEvent.chunk [1], TransferEvent.raiseExn
        (PyExn.rpcError "FILE_REFERENCE_EXPIRED")]).returned =
        Except.ok none ∧
      (get_file [TransferEvent.chunk [1], TransferEvent.raiseExn
        (PyExn.rpcError "FILE_REFERENCE_EXPIRED")]).tempRemoved = true ∧
      ((get_file [TransferEvent.chunk [1], TransferEvent.raiseExn
        (PyExn.rpcError "FILE_REFERENCE_EXPIRED")]).errorLogged = true ↔
        PyExn.rpcError "FILE_REFERENCE_EXPIRED" ≠ PyExn.stopTransmission) :=
  c2_get_file_exceptions
    [TransferEvent.chunk [1], TransferEvent.raiseExn
      (PyExn.rpcError "FILE_REFERENCE_EXPIRED")]
    (PyExn.rpcError "FILE_REFERENCE_EXPIRED") [1] rfl

/-! ## `SendMessage.send_message`, short-sent-message branch
(`src/pyrogram/client/methods/messages/send_message.py`, lines 95-116) -/

/-- The attribute access that can fail in this branch: `InputPeerSelf` (and
`InputPeerChannel`) carry no `chat_id` field (TL schema; the generated
types package is not under `src/`), so `-peer.chat_id` raises
`AttributeError`. -/
inductive SendMsgErr
  | attributeError
deriving DecidableEq

/-- `pyrogram.Chat(id=peer_id, type="private")` as synthesized here. -/
structure PyChat where
  id : Int
  type : String
deriving DecidableEq

/-- The `pyrogram.Message` synthesized from an `UpdateShortSentMessage`. -/
structure PyMessage where
  message_id : Int
  chat : PyChat
  text : String
  date : Int
  outgoing : Bool
deriving DecidableEq

/-- `peer.user_id if isinstance(peer, types.InputPeerUser) else
-peer.chat_id` (lines 98-102). -/
def shortSentPeerId : InputPeer → Except SendMsgErr Int
  | .user uid _ => .ok uid
  | .chat cid => .ok (-cid)
  | .self => .error .attributeError
  | .channel _ _ => .error .attributeError

/-- The `isinstance(r, types.UpdateShortSentMessage)` branch of
`send_message`: re-resolve the peer, derive `peer_id`, and synthesize a
`Message` with `chat.type = "private"` and the reply's id and date. -/
def send_message_short (peer : InputPeer) (r_id r_date : Int) (r_out : Bool)
    (message : String) : Except SendMsgErr PyMessage :=
  match shortSentPeerId peer with
  | .error e => .error e
  | .ok peer_id =>
      .ok ⟨r_id, ⟨peer_id, "private"⟩, message, r_date, r_out⟩

/-! ## Claim C4 -/

/-- C4: evaluating the code at the failing input.  `resolve_peer("me")`
yields the field-less `InputPeerSelf` sentinel, and the short-sent-message
synthesis then raises `AttributeError` on `-peer.chat_id` instead of
returning a message whose `chat.id` is the caller's own user id (which this
branch never reads from anywhere). -/
theorem c4_send_me_short_crashes :
    resolve_peer emptyStorage idNet (PeerIdent.str "me") =
        Except.ok InputPeer.self ∧
      ∀ (r_id r_date : Int) (r_out : Bool) (msg : String),
        send_message_short InputPeer.self r_id r_date r_out msg =
          Except.error SendMsgErr.attributeError :=
  ⟨rfl, fun _ _ _ _ => rfl⟩

/-! ## `Client.updates_worker`, short-message branch
(`src/pyrogram/client/client.py`, lines 929-949) -/

/-- The carried counters of an `UpdateShortMessage` /
`UpdateShortChatMessage` envelope. -/
structure ShortMessage where
  pts : Int
  pts_count : Int
  date : Int
deriving DecidableEq

/-- `functions.updates.GetDifference` arguments. -/
structure GetDifferenceArgs where
  pts : Int
  date : Int
  qts : Int
deriving DecidableEq

/-- `updates.GetDifference` responses.  `Difference` and `DifferenceSlice`
both carry the accessed lists and behave identically here;
`DifferenceEmpty` has no `new_messages` attribute, so the access raises
`AttributeError`, which the worker's per-envelope `except Exception`
handler logs and swallows.  Messages and alternate updates are abstracted
to identifiers; user/chat records to `(id, payload)` pairs, with the
`{i.id: i for i in ...}` dictionaries represented by those pair lists. -/
inductive DiffResponse
  | difference (new_messages : List Nat) (other_updates : List Nat)
      (users : List (Int × String)) (chats : List (Int × String))
  | differenceEmpty
deriving DecidableEq

/-- What the pipeline forwards to `dispatcher.updates_queue`. -/
inductive ForwardedUpdate
  | updateNewMessage (message : Nat) (pts : Int) (pts_count : Int)
  | rawUpdate (u : Nat)
deriving DecidableEq

structure Forwarded where
  update : ForwardedUpdate
  users : List (Int × String)
  chats : List (Int × String)
deriving DecidableEq

/-- The `elif isinstance(updates, (types.UpdateShortMessage,
types.UpdateShortChatMessage))` branch: issue `GetDifference(pts -
pts_count, date, -1)`; if the difference has new messages, forward the
first one wrapped in `UpdateNewMessage` with the returned user/chat maps;
otherwise forward `other_updates[0]` with empty maps (`none` = an exception
swallowed by the worker: empty difference or no alternate update). -/
def updates_worker_short (u : ShortMessage)
    (respond : GetDifferenceArgs → DiffResponse) : Option Forwarded :=
  match respond ⟨u.pts - u.pts_count, u.date, -1⟩ with
  | DiffResponse.differenceEmpty => none
  | DiffResponse.difference new_messages other_updates users chats =>
    match new_messages with
    | m :: _ =>
        some ⟨ForwardedUpdate.updateNewMessage m u.pts u.pts_count,
          users, chats⟩
    | [] =>
      match other_updates with
      | o :: _ => some ⟨ForwardedUpdate.rawUpdate o, [], []⟩
      | [] => none

/-! ## Claim C8 -/

/-- C8: the short-message branch issues its catch-up request at exactly
`(pts - pts_count, date, qts = -1)`; if that difference carries at least one
new message, the first one is forwarded wrapped as `UpdateNewMessage`
(re-tagged with the envelope's counters) together with the returned user
and chat maps; if it carries none, the first alternate update is forwarded
with empty maps. -/
theorem c8_short_message_catch_up :
    ∀ (u : ShortMessage) (respond : GetDifferenceArgs → DiffResponse),
      (∀ (m : Nat) (ms os : List Nat) (us cs : List (Int × String)),
        respond ⟨u.pts - u.pts_count, u.date, -1⟩ =
          DiffResponse.difference (m :: ms) os us cs →
        updates_worker_short u respond =
          some ⟨ForwardedUpdate.updateNewMessage m u.pts u.pts_count,
            us, cs⟩) ∧
      ∀ (o : Nat) (os : List Nat) (us cs : List (Int × String)),
        respond ⟨u.pts - u.pts_count, u.date, -1⟩ =
          DiffResponse.difference [] (o :: os) us cs →
        updates_worker_short u respond =
          some ⟨ForwardedUpdate.rawUpdate o, [], []⟩ := by
  intro u respond
  constructor
  · intro m ms os us cs h
    rw [updates_worker_short, h]
  · intro o os us cs h
    rw [updates_worker_short, h]

/-- Witness for C8: an envelope with `pts = 10`, `pts_count = 2`,
`date = 555` and a responder that only answers at the carried counters
`(8, 555, -1)`. -/
theorem c8_short_message_catch_up_witness :
    updates_worker_short ⟨10, 2, 555⟩
        (fun args => if args = ⟨8, 555, -1⟩ then
          DiffResponse.difference [3] [7] [(1, "alice")] [(2, "chat")]
          else DiffResponse.differenceEmpty) =
      some ⟨ForwardedUpdate.updateNewMessage 3 10 2,
        [(1, "alice")], [(2, "chat")]⟩ :=
  (c8_short_message_catch_up ⟨10, 2, 555⟩ _).1 3 [] [7]
    [(1, "alice")] [(2, "chat")] (by decide)

/-! ## `Client.authorize_user` (`src/pyrogram/client/client.py`, lines 538-760)

The interactive authorization state machine.  The environment is a script of
network responses (one per `send`) plus a stream of interactive prompt
answers; the interpreter returns the final outcome together with the
ordered trace of user-visible events (prints, sleeps, prompts).  The
caller-supplied inputs are `Option String`: `some` is a fixed value (a
callable behaves the same for the `*_invalid_raises` flags, which are
computed once from `is not None` at lines 539-542); `none` is interactive.
Fuel bounds the loops; every iteration consumes at least one scripted
response, so `script.length + 1` fuel is always enough. -/

/-- The caller-supplied (or interactively collected) inputs; these are the
mutable `self.phone_number`, `self.phone_code`, ... fields. -/
structure AuthInputs where
  phone_number : Option String
  phone_code : Option String
  first_name : Option String
  last_name : Option String
  password : Option String
  recovery_code : Option String
deriving DecidableEq

/-- The four `*_invalid_raises` flags of lines 539-542, computed before the
flow starts. -/
structure AuthFlags where
  phone_number_invalid_raises : Bool
  phone_code_invalid_raises : Bool
  password_invalid_raises : Bool
  first_name_invalid_raises : Bool
deriving DecidableEq

def mkFlags (c : AuthInputs) : AuthFlags :=
  ⟨c.phone_number.isSome, c.phone_code.isSome, c.password.isSome,
    c.first_name.isSome⟩

/-- The RPC errors handled by the flow. -/
inductive AuthErr
  | phoneMigrate (dc : Nat)
  | networkMigrate (dc : Nat)
  | phoneNumberInvalid
  | phoneNumberBanned
  | floodWait (x : Nat)
  | phoneCodeInvalid
  | phoneCodeEmpty
  | phoneCodeExpired
  | phoneCodeHashEmpty
  | firstnameInvalid
  | sessionPasswordNeeded
  | phoneNumberUnoccupied
  | phoneNumberOccupied
  | passwordEmpty
  | passwordRecoveryNa
  | passwordHashInvalid
  | otherError (name : String)
deriving DecidableEq

/-- One scripted response to a `send` call. -/
inductive AuthResp
  | sentCode (phone_registered : Bool) (has_terms : Bool)
  | authorization (user_id : Int) (first_name : String)
  | passwordInfo (hint : String)
  | recoveryRequested (email_pattern : String)
  | acceptedTos
  | err (e : AuthErr)
deriving DecidableEq

/-- User-visible events of the flow, in order. -/
inductive AuthEv
  | printedMsg
  | printedFlood (x : Nat)
  | slept (x : Nat)
  | promptedPhone (v : String)
  | promptedCode (v : String)
  | promptedFirstName (v : String)
  | promptedLastName (v : String)
  | promptedPassword (v : String)
  | promptedRecovery (v : String)
  | sessionMigrated (dc : Nat)
  | printedTos
  | warnedUnoccupied
  | warnedOccupied
  | printedPasswordNeeded
  | loggedIn
deriving DecidableEq

/-- Final outcome of `authorize_user`. -/
inductive AuthOutcome
  | authorized (user_id : Int)
  | raised (e : AuthErr)
  | outOfScript
deriving DecidableEq

/-- Outcome of the inner password loop (lines 687-736): `ok` is the `break`
with the final authorization response in `r`. -/
inductive PwResult
  | ok (user_id : Int)
  | raised (e : AuthErr)
  | outOfScript
deriving DecidableEq

/-- `x if field is None else str(field)`: take the stored value, or consume
one interactive prompt (an exhausted prompt stream answers `""`). -/
def collectField (cur : Option String) (prompts : List String)
    (mkEv : String → AuthEv) : String × List String × List AuthEv :=
  match cur with
  | some v => (v, prompts, [])
  | none =>
    match prompts with
    | [] => ("", [], [mkEv ""])
    | p :: rest => (p, rest, [mkEv p])

/-- `phone_number.strip("+")`. -/
def stripPlus (s : String) : String :=
  String.mk (((s.toList.dropWhile (fun c => c == '+')).reverse.dropWhile
    (fun c => c == '+')).reverse)

/-- Lines 750-760: optional `AcceptTermsOfService` send, then
`storage.user_id = r.user.id` and the success print. -/
def finishAuth (uid : Int) (terms : Bool) (script : List AuthResp) :
    AuthOutcome × List AuthEv :=
  if terms then
    match script with
    | [] => (AuthOutcome.outOfScript, [])
    | AuthResp.err e :: _ => (AuthOutcome.raised e, [])
    | _ :: _ => (AuthOutcome.authorized uid, [AuthEv.loggedIn])
  else (AuthOutcome.authorized uid, [AuthEv.loggedIn])

/-- The `while True` password loop (lines 687-736): `GetPassword`, then
either `CheckPassword` or the `RequestPasswordRecovery`/`RecoverPassword`
pair when the collected password is empty; `PasswordEmpty`/
`PasswordRecoveryNa`/`PasswordHashInvalid` and `FloodWait` re-prompt (after
the exact signalled sleep) unless the caller fixed the password, in which
case they raise; other errors raise. -/
def passwordLoop (flags : AuthFlags) :
    Nat → AuthInputs → List AuthResp → List String →
      PwResult × List AuthEv × List AuthResp × List String
  | 0, _, script, prompts => (PwResult.outOfScript, [], script, prompts)
  | fuel + 1, inputs, script, prompts =>
    let pwValidation := fun (e : AuthErr) (inputs' : AuthInputs)
        (rest : List AuthResp) (prompts' : List String)
        (evs : List AuthEv) =>
      if flags.password_invalid_raises then
        (PwResult.raised e, evs, rest, prompts')
      else
        let r := passwordLoop flags fuel
          { inputs' with password := none, recovery_code := none }
          rest prompts'
        (r.1, evs ++ [AuthEv.printedMsg] ++ r.2.1, r.2.2.1, r.2.2.2)
    let pwFlood := fun (x : Nat) (inputs' : AuthInputs)
        (rest : List AuthResp) (prompts' : List String)
        (evs : List AuthEv) =>
      if flags.password_invalid_raises then
        (PwResult.raised (AuthErr.floodWait x), evs, rest, prompts')
      else
        let r := passwordLoop flags fuel
          { inputs' with password := none, recovery_code := none }
          rest prompts'
        (r.1, evs ++ [AuthEv.printedFlood x, AuthEv.slept x] ++ r.2.1,
          r.2.2.1, r.2.2.2)
    let pwErr := fun (e : AuthErr) (inputs' : AuthInputs)
        (rest : List AuthResp) (prompts' : List String)
        (evs : List AuthEv) =>
      match e with
      | AuthErr.passwordEmpty =>
          pwValidation AuthErr.passwordEmpty inputs' rest prompts' evs
      | AuthErr.passwordRecoveryNa =>
          pwValidation AuthErr.passwordRecoveryNa inputs' rest prompts' evs
      | AuthErr.passwordHashInvalid =>
          pwValidation AuthErr.passwordHashInvalid inputs' rest prompts' evs
      | AuthErr.floodWait x => pwFlood x inputs' rest prompts' evs
      | e => (PwResult.raised e, evs, rest, prompts')
    match script with
    | [] => (PwResult.outOfScript, [], [], prompts)
    | resp :: rest =>
      match resp with
      | AuthResp.passwordInfo _hint =>
        let c := collectField inputs.password prompts AuthEv.promptedPassword
        let inputs1 := { inputs with password := some c.1 }
        if c.1 = "" then
          match rest with
          | [] => (PwResult.outOfScript, c.2.2, [], c.2.1)
          | r2 :: rest2 =>
            match r2 with
            | AuthResp.recoveryRequested _pat =>
              let c2 := collectField inputs1.recovery_code c.2.1
                AuthEv.promptedRecovery
              let inputs2 := { inputs1 with recovery_code := some c2.1 }
              match rest2 with
              | [] => (PwResult.outOfScript, c.2.2 ++ c2.2.2, [], c2.2.1)
              | r3 :: rest3 =>
                match r3 with
                | AuthResp.authorization uid _ =>
                    (PwResult.ok uid, c.2.2 ++ c2.2.2, rest3, c2.2.1)
                | AuthResp.err e =>
                    pwErr e inputs2 rest3 c2.2.1 (c.2.2 ++ c2.2.2)
                | _ => (PwResult.outOfScript, c.2.2 ++ c2.2.2, rest3, c2.2.1)
            | AuthResp.err e => pwErr e inputs1 rest2 c.2.1 c.2.2
            | _ => (PwResult.outOfScript, c.2.2, rest2, c.2.1)
        else
          match rest with
          | [] => (PwResult.outOfScript, c.2.2, [], c.2.1)
          | r2 :: rest2 =>
            match r2 with
            | AuthResp.authorization uid _ =>
                (PwResult.ok uid, c.2.2, rest2, c.2.1)
            | AuthResp.err e => pwErr e inputs1 rest2 c.2.1 c.2.2
            | _ => (PwResult.outOfScript, c.2.2, rest2, c.2.1)
      | AuthResp.err e => pwErr e inputs rest prompts []
      | _ => (PwResult.outOfScript, [], rest, prompts)

/-- The `while True` sign-in/sign-up loop (lines 615-748): collect first and
last name when the phone is unregistered, collect the code, submit `SignIn`
or `SignUp`, and handle the rejection taxonomy of lines 664-748. -/
def signLoop (flags : AuthFlags) :
    Nat → AuthInputs → Bool → Bool → List AuthResp → List String →
      AuthOutcome × List AuthEv
  | 0, _, _, _, _, _ => (AuthOutcome.outOfScript, [])
  | fuel + 1, inputs, phone_registered, terms, script, prompts =>
    let cnames :=
      if phone_registered then (inputs, prompts, ([] : List AuthEv))
      else
        let ca := collectField inputs.first_name prompts
          AuthEv.promptedFirstName
        let inputsA := { inputs with first_name := some ca.1 }
        let cb := collectField inputsA.last_name ca.2.1
          AuthEv.promptedLastName
        ({ inputsA with last_name := some cb.1 }, cb.2.1, ca.2.2 ++ cb.2.2)
    let cc := collectField cnames.1.phone_code cnames.2.1 AuthEv.promptedCode
    let inputs2 := { cnames.1 with phone_code := some cc.1 }
    let prompts2 := cc.2.1
    let evs := cnames.2.2 ++ cc.2.2
    let codeErr := fun (e : AuthErr) (rest : List AuthResp) =>
      if flags.phone_code_invalid_raises then (AuthOutcome.raised e, evs)
      else
        let r := signLoop flags fuel { inputs2 with phone_code := none }
          phone_registered terms rest prompts2
        (r.1, evs ++ [AuthEv.printedMsg] ++ r.2)
    match script with
    | [] => (AuthOutcome.outOfScript, evs)
    | resp :: rest =>
      match resp with
      | AuthResp.authorization uid _ =>
          let f := finishAuth uid terms rest
          (f.1, evs ++ f.2)
      | AuthResp.err e =>
        match e with
        | AuthErr.phoneNumberUnoccupied =>
          if phone_registered then
            let r := signLoop flags fuel inputs2 false terms rest prompts2
            (r.1, evs ++ [AuthEv.warnedUnoccupied] ++ r.2)
          else (AuthOutcome.raised AuthErr.phoneNumberUnoccupied, evs)
        | AuthErr.phoneNumberOccupied =>
          if phone_registered then
            (AuthOutcome.raised AuthErr.phoneNumberOccupied, evs)
          else
            let r := signLoop flags fuel inputs2 true terms rest prompts2
            (r.1, evs ++ [AuthEv.warnedOccupied] ++ r.2)
        | AuthErr.phoneCodeInvalid => codeErr AuthErr.phoneCodeInvalid rest
        | AuthErr.phoneCodeEmpty => codeErr AuthErr.phoneCodeEmpty rest
        | AuthErr.phoneCodeExpired => codeErr AuthErr.phoneCodeExpired rest
        | AuthErr.phoneCodeHashEmpty =>
            codeErr AuthErr.phoneCodeHashEmpty rest
        | AuthErr.firstnameInvalid =>
          if flags.first_name_invalid_raises then
            (AuthOutcome.raised AuthErr.firstnameInvalid, evs)
          else
            let r := signLoop flags fuel
              { inputs2 with first_name := none } phone_registered terms
              rest prompts2
            (r.1, evs ++ [AuthEv.printedMsg] ++ r.2)
        | AuthErr.sessionPasswordNeeded =>
          let r := passwordLoop flags fuel inputs2 rest prompts2
          match r.1 with
          | PwResult.ok uid =>
              let f := finishAuth uid terms r.2.2.1
              (f.1, evs ++ [AuthEv.printedPasswordNeeded] ++ r.2.1 ++ f.2)
          | PwResult.raised e2 =>
              (AuthOutcome.raised e2,
                evs ++ [AuthEv.printedPasswordNeeded] ++ r.2.1)
          | PwResult.outOfScript =>
              (AuthOutcome.outOfScript,
                evs ++ [AuthEv.printedPasswordNeeded] ++ r.2.1)
        | AuthErr.floodWait x =>
          if flags.phone_code_invalid_raises ||
              flags.first_name_invalid_raises then
            (AuthOutcome.raised (AuthErr.floodWait x), evs)
          else
            let r := signLoop flags fuel inputs2 phone_registered terms rest
              prompts2
            (r.1, evs ++ [AuthEv.printedFlood x, AuthEv.slept x] ++ r.2)
        | e => (AuthOutcome.raised e, evs)
      | _ => (AuthOutcome.outOfScript, evs)

/-- Lines 599-613: terms-of-service one-time display and the optional
`ResendCode` of `force_sms`, then into the sign loop. -/
def postPhone (flags : AuthFlags) (fuel : Nat) (inputs : AuthInputs)
    (phone_registered terms : Bool) (script : List AuthResp)
    (prompts : List String) (tos_displayed force_sms : Bool) :
    AuthOutcome × List AuthEv :=
  let evs_tos : List AuthEv :=
    if terms && !tos_displayed then [AuthEv.printedTos] else []
  if force_sms then
    match script with
    | [] => (AuthOutcome.outOfScript, evs_tos)
    | AuthResp.err e :: _ => (AuthOutcome.raised e, evs_tos)
    | _ :: rest =>
      let r := signLoop flags fuel inputs phone_registered terms rest prompts
      (r.1, evs_tos ++ r.2)
  else
    let r := signLoop flags fuel inputs phone_registered terms script prompts
    (r.1, evs_tos ++ r.2)

/-- The `while True` phone loop (lines 554-597): collect the phone number,
send `SendCode`, and handle migration, `PhoneNumberInvalid`/
`PhoneNumberBanned`, `FloodWait` and fatal errors. -/
def phoneLoop (flags : AuthFlags) (tos_displayed force_sms : Bool) :
    Nat → AuthInputs → List AuthResp → List String →
      AuthOutcome × List AuthEv
  | 0, _, _, _ => (AuthOutcome.outOfScript, [])
  | fuel + 1, inputs, script, prompts =>
    let c := collectField inputs.phone_number prompts AuthEv.promptedPhone
    let phone := stripPlus c.1
    let inputs2 := { inputs with phone_number := some phone }
    let evs := c.2.2
    match script with
    | [] => (AuthOutcome.outOfScript, evs)
    | resp :: rest =>
      match resp with
      | AuthResp.sentCode reg terms =>
          let r := postPhone flags fuel inputs2 reg terms rest c.2.1
            tos_displayed force_sms
          (r.1, evs ++ r.2)
      | AuthResp.err e =>
        match e with
        | AuthErr.phoneMigrate dc =>
            let r := phoneLoop flags tos_displayed force_sms fuel inputs2
              rest c.2.1
            (r.1, evs ++ [AuthEv.sessionMigrated dc] ++ r.2)
        | AuthErr.networkMigrate dc =>
            let r := phoneLoop flags tos_displayed force_sms fuel inputs2
              rest c.2.1
            (r.1, evs ++ [AuthEv.sessionMigrated dc] ++ r.2)
        | AuthErr.phoneNumberInvalid =>
          if flags.phone_number_invalid_raises then
            (AuthOutcome.raised AuthErr.phoneNumberInvalid, evs)
          else
            let r := phoneLoop flags tos_displayed force_sms fuel
              { inputs2 with phone_number := none } rest c.2.1
            (r.1, evs ++ [AuthEv.printedMsg] ++ r.2)
        | AuthErr.phoneNumberBanned =>
          if flags.phone_number_invalid_raises then
            (AuthOutcome.raised AuthErr.phoneNumberBanned, evs)
          else
            let r := phoneLoop flags tos_displayed force_sms fuel
              { inputs2 with phone_number := none } rest c.2.1
            (r.1, evs ++ [AuthEv.printedMsg] ++ r.2)
        | AuthErr.floodWait x =>
          if flags.phone_number_invalid_raises then
            (AuthOutcome.raised (AuthErr.floodWait x), evs)
          else
            let r := phoneLoop flags tos_displayed force_sms fuel inputs2
              rest c.2.1
            (r.1, evs ++ [AuthEv.printedFlood x, AuthEv.slept x] ++ r.2)
        | e => (AuthOutcome.raised e, evs)
      | _ => (AuthOutcome.outOfScript, evs)

/-- `Client.authorize_user`, driven by a response script and a prompt
stream.  `tos_displayed` is the process-global
`Client.terms_of_service_displayed` flag. -/
def authorize_user (cfg : AuthInputs) (tos_displayed force_sms : Bool)
    (script : List AuthResp) (prompts : List String) :
    AuthOutcome × List AuthEv :=
  phoneLoop (mkFlags cfg) tos_displayed force_sms (script.length + 1) cfg
    script prompts

/-! ## Claim C7 -/

/-- C7: during interactive authorization, a network rejection of a
caller-fixed value raises immediately with no retry and no further events;
a rejection of an interactively collected value is displayed and the flow
loops back to re-prompt the same input; a flood-wait rejection sleeps
exactly the signalled duration and retries the same step, unless the
fixed-value rule for that step's inputs (phone number for `SendCode`; code
or first name for `SignIn`/`SignUp`; password for the password step) makes
it non-retryable, in which case it raises.  Stated for each of the four
enumerated inputs — phone number, code, first name, password — at the head
of the response script of the loop that collects it. -/
theorem c7_authorize_user_retry_rules :
    ∀ (flags : AuthFlags) (tos fs : Bool) (fuel : Nat)
      (inputs : AuthInputs) (rest : List AuthResp) (prompts : List String),
      -- phone step: fixed value rejected → immediate raise, nothing else
      (∀ v, inputs.phone_number = some v →
        flags.phone_number_invalid_raises = true →
        phoneLoop flags tos fs (fuel + 1) inputs
            (AuthResp.err AuthErr.phoneNumberInvalid :: rest) prompts =
          (AuthOutcome.raised AuthErr.phoneNumberInvalid, [])) ∧
      -- phone step: interactive value rejected → display, re-prompt, loop
      (∀ p, inputs.phone_number = none →
        flags.phone_number_invalid_raises = false →
        phoneLoop flags tos fs (fuel + 1) inputs
            (AuthResp.err AuthErr.phoneNumberInvalid :: rest)
            (p :: prompts) =
          ((phoneLoop flags tos fs fuel
              { inputs with phone_number := none } rest prompts).1,
            AuthEv.promptedPhone p :: AuthEv.printedMsg ::
              (phoneLoop flags tos fs fuel
                { inputs with phone_number := none } rest prompts).2)) ∧
      -- phone step: flood-wait, fixed value → non-retryable, raises
      (∀ v x, inputs.phone_number = some v →
        flags.phone_number_invalid_raises = true →
        phoneLoop flags tos fs (fuel + 1) inputs
            (AuthResp.err (AuthErr.floodWait x) :: rest) prompts =
          (AuthOutcome.raised (AuthErr.floodWait x), [])) ∧
      -- phone step: flood-wait, no fixed value → sleep exactly x, retry
      -- the same step with the same phone number
      (∀ v x, inputs.phone_number = some v →
        flags.phone_number_invalid_raises = false →
        phoneLoop flags tos fs (fuel + 1) inputs
            (AuthResp.err (AuthErr.floodWait x) :: rest) prompts =
          ((phoneLoop flags tos fs fuel
              { inputs with phone_number := some (stripPlus v) } rest
              prompts).1,
            AuthEv.printedFlood x :: AuthEv.slept x ::
              (phoneLoop flags tos fs fuel
                { inputs with phone_number := some (stripPlus v) } rest
                prompts).2)) ∧
      -- code step: fixed code rejected → immediate raise
      (∀ v terms, inputs.phone_code = some v →
        flags.phone_code_invalid_raises = true →
        signLoop flags (fuel + 1) inputs true terms
            (AuthResp.err AuthErr.phoneCodeInvalid :: rest) prompts =
          (AuthOutcome.raised AuthErr.phoneCodeInvalid, [])) ∧
      -- code step: interactive code rejected → display, re-prompt, loop
      (∀ p terms, inputs.phone_code = none →
        flags.phone_code_invalid_raises = false →
        signLoop flags (fuel + 1) inputs true terms
            (AuthResp.err AuthErr.phoneCodeInvalid :: rest)
            (p :: prompts) =
          ((signLoop flags fuel { inputs with phone_code := none } true
              terms rest prompts).1,
            AuthEv.promptedCode p :: AuthEv.printedMsg ::
              (signLoop flags fuel { inputs with phone_code := none } true
                terms rest prompts).2)) ∧
      -- code step: flood-wait with a fixed code or a fixed first name →
      -- non-retryable, raises
      (∀ v x terms, inputs.phone_code = some v →
        (flags.phone_code_invalid_raises ||
          flags.first_name_invalid_raises) = true →
        signLoop flags (fuel + 1) inputs true terms
            (AuthResp.err (AuthErr.floodWait x) :: rest) prompts =
          (AuthOutcome.raised (AuthErr.floodWait x), [])) ∧
      -- code step: flood-wait, nothing fixed → sleep exactly x, retry the
      -- same step with the same code
      (∀ v x terms, inputs.phone_code = some v →
        flags.phone_code_invalid_raises = false →
        flags.first_name_invalid_raises = false →
        signLoop flags (fuel + 1) inputs true terms
            (AuthResp.err (AuthErr.floodWait x) :: rest) prompts =
          ((signLoop flags fuel { inputs with phone_code := some v } true
              terms rest prompts).1,
            AuthEv.printedFlood x :: AuthEv.slept x ::
              (signLoop flags fuel { inputs with phone_code := some v }
                true terms rest prompts).2)) ∧
      -- first-name step (sign-up): fixed first name rejected → immediate
      -- raise (client.py lines 670-672)
      (∀ fn lnm v terms, inputs.first_name = some fn →
        inputs.last_name = some lnm → inputs.phone_code = some v →
        flags.first_name_invalid_raises = true →
        signLoop flags (fuel + 1) inputs false terms
            (AuthResp.err AuthErr.firstnameInvalid :: rest) prompts =
          (AuthOutcome.raised AuthErr.firstnameInvalid, [])) ∧
      -- first-name step (sign-up): interactive first name rejected →
      -- display, reset, loop back to re-prompt the same input
      -- (client.py lines 673-675)
      (∀ p lnm v terms, inputs.first_name = none →
        inputs.last_name = some lnm → inputs.phone_code = some v →
        flags.first_name_invalid_raises = false →
        signLoop flags (fuel + 1) inputs false terms
            (AuthResp.err AuthErr.firstnameInvalid :: rest)
            (p :: prompts) =
          ((signLoop flags fuel { inputs with first_name := none } false
              terms rest prompts).1,
            AuthEv.promptedFirstName p :: AuthEv.printedMsg ::
              (signLoop flags fuel { inputs with first_name := none }
                false terms rest prompts).2)) ∧
      -- password step: fixed password rejected → immediate raise
      (∀ v h, inputs.password = some v → v ≠ "" →
        flags.password_invalid_raises = true →
        passwordLoop flags (fuel + 1) inputs
            (AuthResp.passwordInfo h ::
              AuthResp.err AuthErr.passwordHashInvalid :: rest) prompts =
          (PwResult.raised AuthErr.passwordHashInvalid, [], rest,
            prompts)) ∧
      -- password step: interactive password rejected → display, reset,
      -- loop back to re-prompt
      (∀ p h, inputs.password = none → p ≠ "" →
        flags.password_invalid_raises = false →
        passwordLoop flags (fuel + 1) inputs
            (AuthResp.passwordInfo h ::
              AuthResp.err AuthErr.passwordHashInvalid :: rest)
            (p :: prompts) =
          ((passwordLoop flags fuel
              { inputs with password := none, recovery_code := none } rest
              prompts).1,
            AuthEv.promptedPassword p :: AuthEv.printedMsg ::
              (passwordLoop flags fuel
                { inputs with password := none, recovery_code := none }
                rest prompts).2.1,
            (passwordLoop flags fuel
              { inputs with password := none, recovery_code := none } rest
              prompts).2.2)) ∧
      -- password step: flood-wait, fixed password → raises
      (∀ v h x, inputs.password = some v → v ≠ "" →
        flags.password_invalid_raises = true →
        passwordLoop flags (fuel + 1) inputs
            (AuthResp.passwordInfo h ::
              AuthResp.err (AuthErr.floodWait x) :: rest) prompts =
          (PwResult.raised (AuthErr.floodWait x), [], rest, prompts)) ∧
      -- password step: flood-wait, no fixed password → sleep exactly x and
      -- retry the step (with the password cleared for re-prompting)
      ∀ v h x, inputs.password = some v → v ≠ "" →
        flags.password_invalid_raises = false →
        passwordLoop flags (fuel + 1) inputs
            (AuthResp.passwordInfo h ::
              AuthResp.err (AuthErr.floodWait x) :: rest) prompts =
          ((passwordLoop flags fuel
              { inputs with password := none, recovery_code := none } rest
              prompts).1,
            AuthEv.printedFlood x :: AuthEv.slept x ::
              (passwordLoop flags fuel
                { inputs with password := none, recovery_code := none }
                rest prompts).2.1,
            (passwordLoop flags fuel
              { inputs with password := none, recovery_code := none } rest
              prompts).2.2) := by
  intro flags tos fs fuel inputs rest prompts
  refine ⟨?_, ?_, ?_, ?_, ?_, ?_, ?_, ?_, ?_, ?_, ?_, ?_, ?_, ?_⟩
  · intro v hv hr
    simp [phoneLoop, collectField, hv, hr]
  · intro p hv hr
    simp [phoneLoop, collectField, hv, hr]
  · intro v x hv hr
    simp [phoneLoop, collectField, hv, hr]
  · intro v x hv hr
    simp [phoneLoop, collectField, hv, hr]
  · intro v terms hv hr
    simp [signLoop, collectField, hv, hr]
  · intro p terms hv hr
    simp [signLoop, collectField, hv, hr]
  · intro v x terms hv hr
    simp [signLoop, collectField, hv, hr]
  · intro v x terms hv hr1 hr2
    simp [signLoop, collectField, hv, hr1, hr2]
  · intro fn lnm v terms hfn hln hc hr
    simp [signLoop, collectField, hfn, hln, hc, hr]
  · intro p lnm v terms hfn hln hc hr
    simp [signLoop, collectField, hfn, hln, hc, hr]
  · intro v h hv hne hr
    simp [passwordLoop, collectField, hv, hne, hr]
  · intro p h hv hne hr
    simp [passwordLoop, collectField, hv, hne, hr]
  · intro v h x hv hne hr
    simp [passwordLoop, collectField, hv, hne, hr]
  · intro v h x hv hne hr
    simp [passwordLoop, collectField, hv, hne, hr]

/-- Witness for C7 at concrete inputs: a fixed phone number rejected by the
network raises immediately; a flood wait of 23 seconds on an interactively
collected phone number sleeps 23 seconds and retries; a fixed first name
rejected with `FirstnameInvalid` during sign-up raises immediately. -/
theorem c7_authorize_user_retry_rules_witness :
    phoneLoop ⟨true, false, false, false⟩ false false 4
        ⟨some "391234", none, none, none, none, none⟩
        [AuthResp.err AuthErr.phoneNumberInvalid] [] =
      (AuthOutcome.raised AuthErr.phoneNumberInvalid, []) ∧
      phoneLoop ⟨false, false, false, false⟩ false false 4
          ⟨some "391234", none, none, none, none, none⟩
          (AuthResp.err (AuthErr.floodWait 23) :: []) [] =
        ((phoneLoop ⟨false, false, false, false⟩ false false 3
            ⟨some "391234", none, none, none, none, none⟩ [] []).1,
          AuthEv.printedFlood 23 :: AuthEv.slept 23 ::
            (phoneLoop ⟨false, false, false, false⟩ false false 3
              ⟨some "391234", none, none, none, none, none⟩ [] []).2) ∧
      signLoop ⟨false, false, false, true⟩ 4
          ⟨some "391234", some "12345", some "Dan", some "T", none, none⟩
          false false [AuthResp.err AuthErr.firstnameInvalid] [] =
        (AuthOutcome.raised AuthErr.firstnameInvalid, []) := by
  have h := c7_authorize_user_retry_rules ⟨true, false, false, false⟩
    false false 3 ⟨some "391234", none, none, none, none, none⟩ [] []
  have h2 := c7_authorize_user_retry_rules ⟨false, false, false, false⟩
    false false 3 ⟨some "391234", none, none, none, none, none⟩ [] []
  have h3 := c7_authorize_user_retry_rules ⟨false, false, false, true⟩
    false false 3
    ⟨some "391234", some "12345", some "Dan", some "T", none, none⟩ [] []
  refine ⟨h.1 "391234" rfl rfl, ?_, ?_⟩
  · have h4 := h2.2.2.2.1 "391234" 23 rfl rfl
    have hstrip : stripPlus "391234" = "391234" := by decide
    rw [h4, hstrip]
  · exact h3.2.2.2.2.2.2.2.2.1 "Dan" "T" "12345" false rfl rfl rfl rfl

end Pyro
